import Mathlib

/-!
A shallow embedding of the real-time quiz session engine of
`src/handlers/websocket.rs` (sorukayisi-backend): the scoring computation,
the in-memory session and player tables, the database tables the handlers
read and write, the broadcast fan-out, and the message handlers
(`handle_submit_answer`, `handle_start_game`, `handle_next_question`,
`handle_reconnect`, the disconnect cleanup of `websocket_task`, and the
timer loop `check_game_timers` / `show_question_result`), together with
proofs and refutations of the specification's testable properties.
-/

namespace Sorukayisi

/-- Points awarded for an answer, mirroring the computation in
`handle_submit_answer` (`websocket.rs`, lines 1053-1066): an incorrect
answer earns 0; a correct answer earns
`min_points + (max_points - min_points) * max(max_time_ms - response_time_ms, 0) / max_time_ms`
truncated to an integer, with `min_points = 100`, `max_points = 1000`,
`max_time_ms = 10000`.  The Rust code evaluates the factor in `f64`; the
arithmetic is modelled exactly in `ℚ` (the value is nonnegative, so the
`as i32` truncation is the floor).  This definition uses unbounded
integers; the source's subtraction is on `i32` and overflows for latencies
at or below -2147473648 — `computePointsI32` below models that wrap, and
the two agree whenever `10000 - response_time_ms` fits in an `i32`. -/
def computePoints (is_correct : Bool) (response_time_ms : Int) : Int :=
  if is_correct then
    let max_points : Int := 1000
    let min_points : Int := 100
    let max_time_ms : Int := 10000
    let time_factor : ℚ := ((max (max_time_ms - response_time_ms) 0 : Int) : ℚ) / (max_time_ms : ℚ)
    ⌊(min_points : ℚ) + ((max_points - min_points : Int) : ℚ) * time_factor⌋
  else 0

/-- The scoring formula exactly as the specification words it (§4.3):
`min + (max - min) * clamp((budget - latency) / budget, 0, 1)`, truncated to
an integer, and 0 if incorrect; instantiated with the code's constants
(min 100, max 1000, budget 10000 ms).  Kept separate from `computePoints`
so the two can be compared. -/
def specScore (is_correct : Bool) (response_time_ms : Int) : Int :=
  if is_correct then
    ⌊(100 : ℚ) + (900 : ℚ) * max 0 (min 1 (((10000 : ℚ) - (response_time_ms : ℚ)) / (10000 : ℚ)))⌋
  else 0

theorem computePoints_false (l : Int) : computePoints false l = 0 := rfl

theorem computePoints_true_eq (l : Int) :
    computePoints true l = 100 + 900 * max (10000 - l) 0 / 10000 := by
  unfold computePoints
  simp only [if_true]
  have hcast : ((100 : Int) : ℚ) + ((1000 - 100 : Int) : ℚ) *
      (((max ((10000 : Int) - l) 0 : Int) : ℚ) / ((10000 : Int) : ℚ)) =
      ((900 * max (10000 - l) 0 + 10000 * 100 : Int) : ℚ) / ((10000 : ℕ) : ℚ) := by
    push_cast
    field_simp
    ring
  rw [hcast, Rat.floor_intCast_div_natCast]
  generalize max (10000 - l) 0 = m
  omega

theorem specScore_true_eq (l : Int) (h : 0 ≤ l) :
    specScore true l = 100 + 900 * max (10000 - l) 0 / 10000 := by
  unfold specScore
  simp only [if_true]
  have hle : ((10000 : ℚ) - (l : ℚ)) / 10000 ≤ 1 := by
    rw [div_le_one (by norm_num : (0 : ℚ) < 10000)]
    have : (0 : ℚ) ≤ (l : ℚ) := by exact_mod_cast h
    linarith
  rw [min_eq_right hle]
  have hmax : max 0 (((10000 : ℚ) - (l : ℚ)) / 10000) =
      ((max (10000 - l) 0 : Int) : ℚ) / ((10000 : Int) : ℚ) := by
    rcases le_total l 10000 with hl | hl
    · have h1 : (0 : ℚ) ≤ ((10000 : ℚ) - (l : ℚ)) / 10000 := by
        apply div_nonneg _ (by norm_num)
        have : (l : ℚ) ≤ (10000 : ℚ) := by exact_mod_cast hl
        linarith
      rw [max_eq_right h1, max_eq_left (by omega : (0 : Int) ≤ 10000 - l)]
      push_cast
      ring
    · have h1 : ((10000 : ℚ) - (l : ℚ)) / 10000 ≤ 0 := by
        apply div_nonpos_of_nonpos_of_nonneg _ (by norm_num)
        have : (10000 : ℚ) ≤ (l : ℚ) := by exact_mod_cast hl
        linarith
      rw [max_eq_left h1, max_eq_right (by omega : 10000 - l ≤ (0 : Int))]
      norm_num
  rw [hmax]
  have hcast : (100 : ℚ) + (900 : ℚ) *
      (((max ((10000 : Int) - l) 0 : Int) : ℚ) / ((10000 : Int) : ℚ)) =
      ((900 * max (10000 - l) 0 + 10000 * 100 : Int) : ℚ) / ((10000 : ℕ) : ℚ) := by
    push_cast
    field_simp
    ring
  rw [hcast, Rat.floor_intCast_div_natCast]
  generalize max (10000 - l) 0 = m
  omega

/-- C2, counterexample: the code's scoring differs from the specification's
clamped formula.  The code only clamps the time factor from below
(`.max(0)`); it never clamps it at 1, so a (client-supplied) negative
latency of -10000 ms earns 1900 points, while the specification's
`clamp((budget - latency) / budget, 0, 1)` formula yields 1000. -/
theorem c2_counterexample :
    computePoints true (-10000) = 1900 ∧ specScore true (-10000) = 1000 ∧
    computePoints true (-10000) ≠ specScore true (-10000) := by
  have h1 : computePoints true (-10000) = 1900 := by
    rw [computePoints_true_eq]; decide
  have h2 : specScore true (-10000) = 1000 := by
    unfold specScore
    simp only [if_true]
    have hge : (1 : ℚ) ≤ ((10000 : ℚ) - ((-10000 : Int) : ℚ)) / 10000 := by
      rw [le_div_iff₀ (by norm_num : (0 : ℚ) < 10000)]
      push_cast
      norm_num
    rw [min_eq_left hge, max_eq_right (by norm_num : (0 : ℚ) ≤ 1)]
    have : (100 : ℚ) + (900 : ℚ) * 1 = ((1000 : Int) : ℚ) := by norm_num
    rw [this, Int.floor_intCast]
  exact ⟨h1, h2, by omega⟩

/-- C2 (amended): the scoring function returns 0 for every incorrect answer,
and for every correct answer at a *non-negative* latency returns
`min + (max - min) * clamp((budget - latency) / budget, 0, 1)` truncated to
an integer (for negative client-supplied latencies the code omits the upper
clamp and can exceed `max`); with budget 10000 ms, min 100 and max 1000, a
correct answer at latency 0 ms scores 1000, at 5000 ms scores 550, at
10000 ms scores 100, and at 12000 ms scores 100. -/
theorem c2_scoring_formula (l : Int) (h : 0 ≤ l) :
    (computePoints false l = 0 ∧ computePoints true l = specScore true l) ∧
    (computePoints true 0 = 1000 ∧ computePoints true 5000 = 550 ∧
     computePoints true 10000 = 100 ∧ computePoints true 12000 = 100) := by
  refine ⟨⟨computePoints_false l, ?_⟩, ?_, ?_, ?_, ?_⟩
  · rw [computePoints_true_eq, specScore_true_eq l h]
  all_goals rw [computePoints_true_eq]; decide

theorem c2_scoring_formula_witness :
    (0 : Int) ≤ 5000 ∧
    ((computePoints false 5000 = 0 ∧ computePoints true 5000 = specScore true 5000) ∧
     (computePoints true 0 = 1000 ∧ computePoints true 5000 = 550 ∧
      computePoints true 10000 = 100 ∧ computePoints true 12000 = 100)) :=
  ⟨by norm_num, c2_scoring_formula 5000 (by norm_num)⟩

theorem computePoints_antitone (l1 l2 : Int) (h : l1 ≤ l2) :
    computePoints true l2 ≤ computePoints true l1 := by
  rw [computePoints_true_eq, computePoints_true_eq]
  have hm : max (10000 - l2) 0 ≤ max (10000 - l1) 0 :=
    max_le_max (by omega) le_rfl
  generalize hA : max (10000 - l2) 0 = m2 at hm
  generalize hB : max (10000 - l1) 0 = m1 at hm
  omega

theorem computePoints_bounds (l : Int) (h : 0 ≤ l) :
    100 ≤ computePoints true l ∧ computePoints true l ≤ 1000 := by
  rw [computePoints_true_eq]
  have h0 : (0 : Int) ≤ max (10000 - l) 0 := le_max_right _ _
  have h1 : max (10000 - l) 0 ≤ 10000 := max_le (by omega) (by omega)
  generalize hA : max (10000 - l) 0 = m at h0 h1
  omega

/-- Two's-complement wrap to the `i32` range, the release-build semantics
of an overflowing `i32` operation (a debug build would panic instead). -/
def wrap32 (n : Int) : Int := (n + 2147483648) % 4294967296 - 2147483648

theorem wrap32_eq_self (n : Int) (h1 : -2147483648 ≤ n) (h2 : n < 2147483648) :
    wrap32 n = n := by
  unfold wrap32
  have h3 : (0 : Int) ≤ n + 2147483648 := by omega
  have h4 : n + 2147483648 < 4294967296 := by omega
  rw [Int.emod_eq_of_lt h3 h4]
  omega

/-- The scoring computation with the source's `i32` subtraction modelled
bit-faithfully: `(max_time_ms - response_time_ms)` is an `i32` difference,
so for client-supplied latencies at or below -2147473648 it wraps
(two's complement, release build); everything after the `.max(0)` is as in
`computePoints`. -/
def computePointsI32 (is_correct : Bool) (response_time_ms : Int) : Int :=
  if is_correct then
    let max_points : Int := 1000
    let min_points : Int := 100
    let max_time_ms : Int := 10000
    let time_factor : ℚ :=
      ((max (wrap32 (max_time_ms - response_time_ms)) 0 : Int) : ℚ) / (max_time_ms : ℚ)
    ⌊(min_points : ℚ) + ((max_points - min_points : Int) : ℚ) * time_factor⌋
  else 0

theorem computePointsI32_true_eq (l : Int) :
    computePointsI32 true l = 100 + 900 * max (wrap32 (10000 - l)) 0 / 10000 := by
  unfold computePointsI32
  simp only [if_true]
  have hcast : ((100 : Int) : ℚ) + ((1000 - 100 : Int) : ℚ) *
      (((max (wrap32 ((10000 : Int) - l)) 0 : Int) : ℚ) / ((10000 : Int) : ℚ)) =
      ((900 * max (wrap32 (10000 - l)) 0 + 10000 * 100 : Int) : ℚ) / ((10000 : ℕ) : ℚ) := by
    push_cast
    field_simp
    ring
  rw [hcast, Rat.floor_intCast_div_natCast]
  generalize max (wrap32 (10000 - l)) 0 = m
  omega

theorem computePointsI32_eq_computePoints (b : Bool) (l : Int)
    (h1 : -2147483648 ≤ 10000 - l) (h2 : 10000 - l < 2147483648) :
    computePointsI32 b l = computePoints b l := by
  cases b
  · rfl
  · unfold computePointsI32 computePoints
    simp only [if_true]
    rw [wrap32_eq_self _ h1 h2]

/-- C3, counterexample: over all client-reachable latencies the claim fails
twice.  The points are not always within [min, max]: at -10000 ms the code
awards 1900 > 1000 (no upper clamp).  And the points are not non-increasing
in latency: at `i32::MIN` = -2147483648 the `i32` subtraction
`10000 - latency` wraps to a negative value, `.max(0)` gives 0 and the
score drops to 100, while at the slightly *larger* latency -2147473647 the
subtraction peaks at `i32::MAX` and the score is 193273628. -/
theorem c3_counterexample :
    computePointsI32 true (-10000) = 1900 ∧ 1000 < computePointsI32 true (-10000) ∧
    (-2147483648 : Int) < -2147473647 ∧
    computePointsI32 true (-2147483648) = 100 ∧
    computePointsI32 true (-2147473647) = 193273628 ∧
    computePointsI32 true (-2147483648) < computePointsI32 true (-2147473647) := by
  refine ⟨?_, ?_, by norm_num, ?_, ?_, ?_⟩ <;>
    rw [computePointsI32_true_eq] <;> first
      | decide
      | (rw [computePointsI32_true_eq]; decide)

/-- C3 (amended): for every correct answer the points are non-increasing as
latency increases over all latencies for which the `i32` subtraction
`10000 - latency` does not overflow (every latency in
[-2147473647, 2147483647], which is all of `i32` except the wrap region at
and below -2147473648), and for every non-negative latency the points lie
within [100, 1000].  Outside that range the claim fails: a negative
latency can exceed the maximum, and the `i32` wrap at `i32::MIN` breaks
monotonicity (see the counterexample). -/
theorem c3_monotone_bounded :
    (∀ l1 l2 : Int, -2147473647 ≤ l1 → l1 ≤ l2 → l2 ≤ 2147483647 →
      computePointsI32 true l2 ≤ computePointsI32 true l1) ∧
    (∀ l : Int, 0 ≤ l → l ≤ 2147483647 →
      100 ≤ computePointsI32 true l ∧ computePointsI32 true l ≤ 1000) := by
  constructor
  · intro l1 l2 h1 h12 h2
    rw [computePointsI32_eq_computePoints true l1 (by omega) (by omega),
        computePointsI32_eq_computePoints true l2 (by omega) (by omega)]
    exact computePoints_antitone l1 l2 h12
  · intro l h0 h2
    rw [computePointsI32_eq_computePoints true l (by omega) (by omega)]
    exact computePoints_bounds l h0

theorem c3_monotone_bounded_witness :
    ((-2147473647 : Int) ≤ 0 ∧ (0 : Int) ≤ 5000 ∧ (5000 : Int) ≤ 2147483647 ∧
      computePointsI32 true 5000 ≤ computePointsI32 true 0) ∧
    ((0 : Int) ≤ 5000 ∧
      100 ≤ computePointsI32 true 5000 ∧ computePointsI32 true 5000 ≤ 1000) :=
  ⟨⟨by norm_num, by norm_num, by norm_num,
    c3_monotone_bounded.1 0 5000 (by norm_num) (by norm_num) (by norm_num)⟩,
   by norm_num,
   (c3_monotone_bounded.2 5000 (by norm_num) (by norm_num)).1,
   (c3_monotone_bounded.2 5000 (by norm_num) (by norm_num)).2⟩

/-! ### Association-list maps

The Rust code keeps its in-memory tables in `HashMap`s; they are modelled as
association lists with unique-key insert/update/remove semantics. -/

/-- First value bound to `k`, like `HashMap::get`. -/
def alookup {κ α : Type} [DecidableEq κ] : List (κ × α) → κ → Option α
  | [], _ => none
  | (k', v) :: rest, k => if k' = k then some v else alookup rest k

/-- Apply `f` to the entry at `k` (first occurrence), like
`HashMap::get_mut` followed by a mutation; no-op when `k` is absent. -/
def aupdate {κ α : Type} [DecidableEq κ] (f : α → α) : List (κ × α) → κ → List (κ × α)
  | [], _ => []
  | (k', v) :: rest, k => if k' = k then (k', f v) :: rest else (k', v) :: aupdate f rest k

/-- Bind `k` to `v`, replacing an existing binding, like `HashMap::insert`. -/
def ainsert {κ α : Type} [DecidableEq κ] : List (κ × α) → κ → α → List (κ × α)
  | [], k, v => [(k, v)]
  | (k', v') :: rest, k, v => if k' = k then (k, v) :: rest else (k', v') :: ainsert rest k v

/-- Drop the binding at `k` (first occurrence), like `HashMap::remove`. -/
def aremove {κ α : Type} [DecidableEq κ] : List (κ × α) → κ → List (κ × α)
  | [], _ => []
  | (k', v) :: rest, k => if k' = k then rest else (k', v) :: aremove rest k

theorem alookup_aupdate {κ α : Type} [DecidableEq κ] (f : α → α)
    (l : List (κ × α)) (k k' : κ) :
    alookup (aupdate f l k) k' =
      if k' = k then (alookup l k').map f else alookup l k' := by
  induction l with
  | nil => simp [alookup, aupdate]
  | cons hd tl ih =>
    obtain ⟨k0, v0⟩ := hd
    by_cases h0 : k0 = k
    · subst h0
      by_cases h1 : k' = k0
      · subst h1
        simp [alookup, aupdate]
      · simp [alookup, aupdate, h1, Ne.symm h1]
    · by_cases h1 : k0 = k'
      · subst h1
        simp [alookup, aupdate, h0, Ne.symm h0]
      · simp [alookup, aupdate, h0, h1, ih]

/-! ### JSON payloads

`handle_next_question` builds the `question_start` payload as a JSON object
and strips the `correct_option` key before the public broadcast; the payload
is modelled as a key/value list. -/

/-- A JSON value, as far as the modelled payloads need. -/
inductive JVal : Type
  | str (s : String)
  | int (n : Int)
  | optInt (n : Option Int)
  | obj (fields : List (String × JVal))

/-- Value of field `k` of a JSON object (a `serde_json::Map` lookup). -/
def getField : List (String × JVal) → String → Option JVal
  | [], _ => none
  | (k', v) :: rest, k => if k' = k then some v else getField rest k

/-- `Map::remove(k)` on a JSON object. -/
def removeField (fields : List (String × JVal)) (k : String) : List (String × JVal) :=
  fields.filter (fun kv => kv.1 ≠ k)

/-! ### The durable store

The handlers read and write the Postgres tables `games`, `players`,
`questions`, `player_answers` and `active_connections` through inline SQL;
the rows are modelled as records and the database as lists of rows.
Timestamps are modelled as abstract `Nat` instants.  Persistence calls are
modelled as always succeeding (§7 treats persistence failures as
best-effort, request-scoped errors). -/

/-- A row of `questions` (columns used by the handlers). -/
structure Question where
  id : Int
  questionSetId : Int
  position : Int
  questionText : String
  optionA : String
  optionB : String
  optionC : String
  optionD : String
  correctOption : String
  timeLimit : Option Int
deriving DecidableEq

/-- A row of `games` (columns used by the handlers). -/
structure DbGame where
  id : Int
  code : String
  hostId : Int
  questionSetId : Int
  status : String
  currentQuestion : Option Int
  startedAt : Option Nat
  endedAt : Option Nat
deriving DecidableEq

/-- A row of `players`.  Modelled from the spec: the schema/migrations are
not under `src/`; per the spec (§3) a player's cumulative score is an
integer, 0 on lobby join, so `score` is a non-null `Int` (the handlers read
it through `score.unwrap_or(0)`). -/
structure DbPlayer where
  id : Int
  gameId : Int
  userId : Option Int
  nickname : String
  sessionId : String
  score : Int
  isActive : Bool
deriving DecidableEq

/-- A row of `player_answers`. -/
structure DbAnswerRow where
  playerId : Int
  questionId : Int
  answer : String
  isCorrect : Bool
  responseTimeMs : Int
  pointsEarned : Int
deriving DecidableEq

/-- A row of `active_connections`. -/
structure DbConn where
  sessionId : String
  userId : Option Int
  gameId : Option Int
  playerId : Option Int
  connectionType : String
deriving DecidableEq

/-- The durable store. -/
structure Db where
  games : List DbGame
  players : List DbPlayer
  questions : List Question
  playerAnswers : List DbAnswerRow
  connections : List DbConn
deriving DecidableEq

/-- `SELECT ... FROM games WHERE code = $1` (first row). -/
def findGameByCode (db : Db) (code : String) : Option DbGame :=
  db.games.find? (fun g => g.code = code)

/-- `SELECT ... FROM active_connections WHERE session_id = $1` (first row). -/
def findDbConn (db : Db) (sid : String) : Option DbConn :=
  db.connections.find? (fun c => c.sessionId = sid)

/-- `SELECT ... FROM questions WHERE id = $1` (first row). -/
def findQuestionById (db : Db) (qid : Int) : Option Question :=
  db.questions.find? (fun q => q.id = qid)

/-- `SELECT ... FROM questions WHERE question_set_id = $1 AND position = $2`
(first row). -/
def findQuestionByPos (db : Db) (setId pos : Int) : Option Question :=
  db.questions.find? (fun q => q.questionSetId = setId && q.position = pos)

/-- `SELECT COUNT(*) FROM questions WHERE question_set_id = $1`. -/
def countQuestions (db : Db) (setId : Int) : Int :=
  ((db.questions.filter (fun q => q.questionSetId = setId)).length : Int)

/-- The `players ⋈ games ⋈ active_connections` join of
`handle_submit_answer`: the player row whose `session_id` is the caller's
session, its game row, provided the caller has an `active_connections`
row. -/
def findPlayerForSubmit (db : Db) (sid : String) : Option (DbPlayer × DbGame) :=
  match findDbConn db sid with
  | none => none
  | some _ =>
    match db.players.find? (fun p => p.sessionId = sid) with
    | none => none
    | some p =>
      match db.games.find? (fun g => g.id = p.gameId) with
      | none => none
      | some g => some (p, g)

/-- The `players ⋈ games` join of `handle_reconnect`, keyed by the old
session id. -/
def findPlayerBySession (db : Db) (sid : String) : Option (DbPlayer × DbGame) :=
  match db.players.find? (fun p => p.sessionId = sid) with
  | none => none
  | some p =>
    match db.games.find? (fun g => g.id = p.gameId) with
    | none => none
    | some g => some (p, g)

/-- `SELECT id FROM player_answers WHERE player_id = $1 AND question_id = $2`. -/
def findAnswerRow (db : Db) (pid qid : Int) : Option DbAnswerRow :=
  db.playerAnswers.find? (fun a => a.playerId = pid && a.questionId = qid)

/-- `INSERT INTO player_answers ...`.  Modelled from the spec: the
schema/migrations are not under `src/`; per the spec (§3) an Answer Record
is "created once per (player, question) pair" and "a second submission for
the same pair is rejected, not overwritten", so the insert fails (returns
`none`, as the query returns `Err`) when a row for the pair already
exists. -/
def insertPlayerAnswer (db : Db) (row : DbAnswerRow) : Option Db :=
  if (findAnswerRow db row.playerId row.questionId).isSome then none
  else some { db with playerAnswers := db.playerAnswers ++ [row] }

/-- `UPDATE players SET score = score + $1 WHERE id = $2`. -/
def addPlayerScore (db : Db) (pid pts : Int) : Db :=
  { db with players := db.players.map fun p =>
      if p.id = pid then { p with score := p.score + pts } else p }

/-- `UPDATE games SET current_question = $1 WHERE id = $2`. -/
def setCurrentQuestionDb (db : Db) (gid n : Int) : Db :=
  { db with games := db.games.map fun g =>
      if g.id = gid then { g with currentQuestion := some n } else g }

/-- `UPDATE games SET status = 'completed', ended_at = ... WHERE id = $1`. -/
def completeGameById (db : Db) (gid : Int) (now : Nat) : Db :=
  { db with games := db.games.map fun g =>
      if g.id = gid then { g with status := "completed", endedAt := some now } else g }

/-- `UPDATE games SET status = 'completed', ended_at = $1 WHERE code = $2`
(the host-departure path). -/
def completeGameByCode (db : Db) (code : String) (now : Nat) : Db :=
  { db with games := db.games.map fun g =>
      if g.code = code then { g with status := "completed", endedAt := some now } else g }

/-- `UPDATE games SET status = $1, started_at = $2 WHERE id = $3`
(`handle_start_game`, status `active`). -/
def startGameDb (db : Db) (gid : Int) (now : Nat) : Db :=
  { db with games := db.games.map fun g =>
      if g.id = gid then { g with status := "active", startedAt := some now } else g }

/-- `UPDATE players SET is_active = true, session_id = $1 WHERE id = $2`
(`handle_reconnect`). -/
def reactivatePlayerDb (db : Db) (pid : Int) (newSid : String) : Db :=
  { db with players := db.players.map fun p =>
      if p.id = pid then { p with isActive := true, sessionId := newSid } else p }

/-- `UPDATE active_connections SET user_id = .., game_id = .., player_id = ..,
connection_type = 'player' WHERE session_id = $4`. -/
def bindConnDb (db : Db) (sid : String) (uid : Option Int) (gid pid : Int) : Db :=
  { db with connections := db.connections.map fun c =>
      if c.sessionId = sid then
        { c with userId := uid, gameId := some gid, playerId := some pid,
                 connectionType := "player" }
      else c }

/-- `DELETE FROM active_connections WHERE session_id = $1`. -/
def deleteConnDb (db : Db) (sid : String) : Db :=
  { db with connections := db.connections.filter (fun c => c.sessionId ≠ sid) }

/-! ### In-memory state

`AppState` keeps two `HashMap`s: `active_connections : session_id →
WebSocketConnection` and `games : game_code → GameState`, each `GameState`
owning a `players : session_id → PlayerState` sub-table. -/

/-- The `ConnectionState` enum of `websocket.rs`. -/
inductive ConnState : Type
  | Lobby
  | Game
  | Question
  | Review
  | Ended
deriving DecidableEq

/-- `WebSocketConnection` (the output handle itself is modelled by mere
presence in the registry: the code stores it as `Some(session)` from
creation on and never clears it). -/
structure MemConn where
  userId : Option Int
  playerId : Option Int
  gameId : Option Int
  gameCode : Option String
  connectionType : String
  lastSeen : Nat
deriving DecidableEq

/-- `PlayerAnswer` of `websocket.rs`. -/
structure PlayerAnswer where
  questionId : Int
  answer : Option String
  isCorrect : Bool
  responseTimeMs : Int
  pointsEarned : Int
deriving DecidableEq

/-- `PlayerState` of `websocket.rs`. -/
structure PlayerState where
  playerId : Int
  userId : Option Int
  sessionId : String
  nickname : String
  score : Int
  answers : List (Int × PlayerAnswer)
  isActive : Bool
  joinedAt : Nat
  lastSeen : Nat
  lastAnswerTime : Option Nat
deriving DecidableEq

/-- `GameState` of `websocket.rs`. -/
structure GameState where
  id : Int
  code : String
  hostSessionId : String
  hostId : Int
  questionSetId : Int
  players : List (String × PlayerState)
  currentQuestion : Int
  state : ConnState
  startedAt : Option Nat
  endedAt : Option Nat
  questionTimer : Option Nat
  questionDuration : Option Nat
  totalQuestions : Int
deriving DecidableEq

/-- The in-memory connection registry. -/
abbrev ConnMap : Type := List (String × MemConn)

/-- The in-memory session store. -/
abbrev GamesMap : Type := List (String × GameState)

/-- A leaderboard row (`LeaderboardEntry` of `db/models.rs`). -/
structure LeaderboardEntry where
  playerId : Int
  nickname : String
  score : Int
  isGuest : Bool
deriving DecidableEq

/-- A `player_stats` row of the `game_end` message: per-player totals,
accuracy `round(correct / answers * 100)` and rounded mean response time
(computed by the SQL of `handle_next_question`; exact rationals stand in
for the `f64`/`NUMERIC` arithmetic). -/
structure PlayerStat where
  playerId : Int
  nickname : String
  score : Int
  answerCount : Nat
  correctCount : Nat
  accuracy : ℚ
  avgResponseTimeMs : ℚ
deriving DecidableEq

/-- The outbound messages the modelled handlers emit (presentation-only
`"message"` text fields are not modelled; the `error` payload keeps its text
because the protocol distinguishes error kinds only by it). -/
inductive OutMsg : Type
  | errorMsg (message : String)
  | gameStarted (gameCode : String)
  | questionStart (payload : List (String × JVal))
  | answerReceived (questionId : Int) (yourAnswer : String) (isCorrect : Bool)
      (pointsEarned : Int)
  | questionEnd (questionId : Int) (correctOption : String)
      (leaderboard : List LeaderboardEntry)
  | gameEnd (finalLeaderboard : List LeaderboardEntry) (playerStats : List PlayerStat)
  | gameEndForced (reason : String)
  | reconnectSuccess (playerId : Int) (gameCode : String) (nickname : String)
      (score : Int) (gameStatus : String) (currentQuestion : Option Int)
  | currentQuestionMsg (payload : List (String × JVal))
  | answerReceivedStored (questionId : Int) (yourAnswer : String) (isCorrect : Bool)
      (pointsEarned : Int)
  | leaderboardUpdate (leaderboard : List LeaderboardEntry)

/-- Sessions reached by `AppState::broadcast_to_game`: every key of the
game's `players` sub-table whose connection is still in the registry, then
the host's session if registered.  Unknown game code: nobody. -/
def sessionRecipients (conns : ConnMap) (games : GamesMap) (code : String) : List String :=
  match alookup games code with
  | none => []
  | some g =>
      (g.players.map Prod.fst).filter (fun sid => (alookup conns sid).isSome) ++
        (if (alookup conns g.hostSessionId).isSome then [g.hostSessionId] else [])

/-- `AppState::broadcast_to_game`: the per-recipient deliveries of one
broadcast. -/
def broadcastToGame (conns : ConnMap) (games : GamesMap) (code : String) (msg : OutMsg) :
    List (String × OutMsg) :=
  (sessionRecipients conns games code).map (fun sid => (sid, msg))

/-- Descending-by-score comparison used to model `ORDER BY score DESC`. -/
def scoreGe (a b : DbPlayer) : Prop := b.score ≤ a.score

instance : DecidableRel scoreGe := fun a b => Int.decLe b.score a.score

instance : IsTotal DbPlayer scoreGe := ⟨fun a b => le_total b.score a.score⟩

instance : IsTrans DbPlayer scoreGe :=
  ⟨fun _ _ _ hab hbc => le_trans hbc hab⟩

/-- The SQL of `AppState::get_leaderboard`: active players of game `gid`,
ordered by score descending (`ORDER BY score DESC`), first 100 rows
(`LIMIT 100`), projected to entries. -/
def leaderboardOf (db : Db) (gid : Int) : List LeaderboardEntry :=
  (((db.players.filter (fun p => p.gameId = gid && p.isActive)).insertionSort
      scoreGe).take 100).map
    (fun p => ⟨p.id, p.nickname, p.score, p.userId.isNone⟩)

/-- `AppState::get_leaderboard`: the leaderboard of the game's durable rows;
fails (`None`, as the Rust returns `Err`) when the code has no in-memory
session. -/
def getLeaderboard (db : Db) (games : GamesMap) (code : String) :
    Option (List LeaderboardEntry) :=
  match alookup games code with
  | none => none
  | some g => some (leaderboardOf db g.id)

/-- The `player_stats` aggregation of `handle_next_question`'s game-over
branch: per active player of the game, total and correct answer counts over
all that player's `player_answers` rows, percentage accuracy and mean
response time, ordered by score descending. -/
def playerStatsFor (db : Db) (gid : Int) : List PlayerStat :=
  (((db.players.filter (fun p => p.gameId = gid && p.isActive)).insertionSort
      scoreGe)).map
    (fun p =>
      let rows := db.playerAnswers.filter (fun a => a.playerId = p.id)
      let n := rows.length
      let c := (rows.filter (fun a => a.isCorrect)).length
      { playerId := p.id, nickname := p.nickname, score := p.score,
        answerCount := n, correctCount := c,
        accuracy := if 0 < n then ((round (((c : ℚ) / (n : ℚ)) * 100) : Int) : ℚ) else 0,
        avgResponseTimeMs :=
          if 0 < n then ((round (((rows.map (fun a => a.responseTimeMs)).sum : ℚ) / (n : ℚ)) : Int) : ℚ)
          else 0 })

/-! ### Handlers -/

/-- The outcome of one inbound-message handler run: the two in-memory
tables, the durable store, the messages sent back on the caller's own
connection (in order), and the per-recipient broadcast deliveries. -/
structure HandlerResult where
  conns : ConnMap
  db : Db
  games : GamesMap
  replies : List OutMsg
  broadcasts : List (String × OutMsg)

/-- The `question_start` JSON object `handle_next_question` builds (lines
1269-1282); it never includes `correct_option`. -/
def questionStartData (q : Question) (next_question total_questions : Int) :
    List (String × JVal) :=
  [("type", JVal.str "question_start"),
   ("question_id", JVal.int q.id),
   ("question_text", JVal.str q.questionText),
   ("options", JVal.obj [("A", JVal.str q.optionA), ("B", JVal.str q.optionB),
                         ("C", JVal.str q.optionC), ("D", JVal.str q.optionD)]),
   ("time_limit", JVal.optInt q.timeLimit),
   ("question_number", JVal.int (next_question + 1)),
   ("total_questions", JVal.int total_questions)]

/-- The privileged `question_start` copy sent to the host's own connection
(lines 1294-1312), which carries `correct_option`. -/
def hostQuestionStartData (q : Question) (next_question total_questions : Int) :
    List (String × JVal) :=
  [("type", JVal.str "question_start"),
   ("question_id", JVal.int q.id),
   ("question_text", JVal.str q.questionText),
   ("options", JVal.obj [("A", JVal.str q.optionA), ("B", JVal.str q.optionB),
                         ("C", JVal.str q.optionC), ("D", JVal.str q.optionD)]),
   ("correct_option", JVal.str q.correctOption),
   ("time_limit", JVal.optInt q.timeLimit),
   ("question_number", JVal.int (next_question + 1)),
   ("total_questions", JVal.int total_questions)]

/-- The `current_question` JSON object `handle_reconnect` re-sends (without
the answer key). -/
def currentQuestionData (q : Question) : List (String × JVal) :=
  [("type", JVal.str "current_question"),
   ("question_id", JVal.int q.id),
   ("question_text", JVal.str q.questionText),
   ("options", JVal.obj [("A", JVal.str q.optionA), ("B", JVal.str q.optionB),
                         ("C", JVal.str q.optionC), ("D", JVal.str q.optionD)]),
   ("time_limit", JVal.optInt q.timeLimit),
   ("question_number", JVal.int (q.position + 1))]

/-- `handle_submit_answer` (`websocket.rs` 1018-1180).  Resolves the
caller's player row, looks the question up by id (with no check of the
session's phase, of the current question, or that the question belongs to
the session's question set), scores it, inserts the answer row, adds the
points to the durable and in-memory scores, records the in-memory answer,
and replies `answer_received`; when the insert fails the handler falls
through silently (`if let Ok(_)`), sending nothing. -/
def handle_submit_answer (conns : ConnMap) (db : Db) (games : GamesMap)
    (question_id : Int) (answer : String) (response_time_ms : Int)
    (session_id : String) (now : Nat) : HandlerResult :=
  match findPlayerForSubmit db session_id with
  | none => ⟨conns, db, games, [OutMsg.errorMsg "Aktif oyuncu bulunamadı"], []⟩
  | some (p, g) =>
    match findQuestionById db question_id with
    | none => ⟨conns, db, games, [OutMsg.errorMsg "Soru bulunamadı"], []⟩
    | some q =>
      let is_correct := answer.toUpper == q.correctOption
      let points := computePoints is_correct response_time_ms
      match insertPlayerAnswer db
          ⟨p.id, question_id, answer.toUpper, is_correct, response_time_ms, points⟩ with
      | none => ⟨conns, db, games, [], []⟩
      | some db1 =>
        let db2 := addPlayerScore db1 p.id points
        let games1 := aupdate (fun gs =>
          { gs with players := aupdate (fun ps =>
              { ps with score := ps.score + points,
                        lastAnswerTime := some now,
                        answers := ainsert ps.answers question_id
                          ⟨question_id, some answer.toUpper, is_correct,
                           response_time_ms, points⟩ }) gs.players session_id })
          games g.code
        ⟨conns, db2, games1,
         [OutMsg.answerReceived question_id answer.toUpper is_correct points], []⟩

/-- The in-memory update when a next question is loaded: new index, phase
`Question`, fresh timer and duration from the question metadata.  The
duration is `Duration::from_secs(time_limit.unwrap_or(30) as u64)`; for a
negative `time_limit` the `as u64` cast would wrap to an enormous duration,
while `.toNat` clamps to 0 — authored questions have positive limits, and
no theorem below depends on the duration value. -/
def advanceGameState (n : Int) (now : Nat) (q : Question) (gs : GameState) : GameState :=
  { gs with currentQuestion := n, state := ConnState.Question,
            questionTimer := some now,
            questionDuration := some (q.timeLimit.getD 30).toNat }

/-- The in-memory update when the question set is exhausted: phase `Ended`. -/
def endGameState (now : Nat) (gs : GameState) : GameState :=
  { gs with state := ConnState.Ended, endedAt := some now }

/-- `handle_next_question` (`websocket.rs` 1182-1432). -/
def handle_next_question (conns : ConnMap) (db : Db) (games : GamesMap)
    (game_code session_id : String) (now : Nat) : HandlerResult :=
  match findGameByCode db game_code, findDbConn db session_id with
  | some g, some ac =>
    if ac.userId ≠ some g.hostId then
      ⟨conns, db, games, [OutMsg.errorMsg "Sadece oyun sahibi soruları ilerletebilir"], []⟩
    else
      let next_question := g.currentQuestion.getD (-1) + 1
      let total_questions := countQuestions db g.questionSetId
      match findQuestionByPos db g.questionSetId next_question with
      | some q =>
        let db1 := setCurrentQuestionDb db g.id next_question
        let games1 := aupdate (advanceGameState next_question now q) games game_code
        let bpayload := removeField (questionStartData q next_question total_questions)
          "correct_option"
        ⟨conns, db1, games1,
         [OutMsg.questionStart (hostQuestionStartData q next_question total_questions)],
         broadcastToGame conns games1 game_code (OutMsg.questionStart bpayload)⟩
      | none =>
        let db1 := completeGameById db g.id now
        let games1 := aupdate (endGameState now) games game_code
        match getLeaderboard db1 games1 game_code with
        | some lb =>
          ⟨conns, db1, games1, [],
           broadcastToGame conns games1 game_code
             (OutMsg.gameEnd lb (playerStatsFor db1 g.id))⟩
        | none => ⟨conns, db1, games1, [], []⟩
  | _, _ => ⟨conns, db, games, [OutMsg.errorMsg "Oyun bulunamadı"], []⟩

/-- `handle_start_game` (`websocket.rs` 897-1016); on success it chains into
`handle_next_question` to load the first question. -/
def handle_start_game (conns : ConnMap) (db : Db) (games : GamesMap)
    (game_code session_id : String) (now : Nat) : HandlerResult :=
  match findGameByCode db game_code, findDbConn db session_id with
  | some g, some ac =>
    if ac.userId ≠ some g.hostId then
      ⟨conns, db, games, [OutMsg.errorMsg "Sadece oyun sahibi oyunu başlatabilir"], []⟩
    else if g.status ≠ "lobby" then
      ⟨conns, db, games, [OutMsg.errorMsg "Bu oyun zaten başlatılmış veya sonlanmış"], []⟩
    else
      let db1 := startGameDb db g.id now
      let games1 := aupdate (fun gs =>
          { gs with state := ConnState.Game, startedAt := some now }) games game_code
      let started := broadcastToGame conns games1 game_code (OutMsg.gameStarted game_code)
      let r := handle_next_question conns db1 games1 game_code session_id now
      ⟨r.conns, r.db, r.games, r.replies, started ++ r.broadcasts⟩
  | _, _ => ⟨conns, db, games, [OutMsg.errorMsg "Oyun bulunamadı"], []⟩

/-- Marking the departing session's player state inactive
(`player.is_active = false` in the cleanup loop of `websocket_task`). -/
def markPlayerInactive (session_id : String) (g : GameState) : GameState :=
  { g with players := aupdate (fun p => { p with isActive := false }) g.players session_id }

/-- The disconnect cleanup at the end of `websocket_task` (`websocket.rs`
544-611): the registry entry and the durable connection row are removed;
the first in-memory game holding the session among its `players` keys has
that player marked inactive; and only when that game's `host_session_id` is
the departing session is the durable row marked completed and a forced
`game_end` (reason `host_left`) broadcast.  The in-memory phase is not
changed. -/
def websocket_disconnect (conns : ConnMap) (db : Db) (games : GamesMap)
    (session_id : String) (now : Nat) : HandlerResult :=
  let conns1 := aremove conns session_id
  let db1 := deleteConnDb db session_id
  match games.find? (fun cg => (alookup cg.2.players session_id).isSome) with
  | none => ⟨conns1, db1, games, [], []⟩
  | some (code, _) =>
    let games1 := aupdate (markPlayerInactive session_id) games code
    match alookup games1 code with
    | none => ⟨conns1, db1, games1, [], []⟩
    | some g =>
      if g.hostSessionId = session_id then
        let db2 := completeGameByCode db1 code now
        ⟨conns1, db2, games1, [],
         broadcastToGame conns1 games1 code (OutMsg.gameEndForced "host_left")⟩
      else ⟨conns1, db1, games1, [], []⟩

/-- The migrated `PlayerState` `handle_reconnect` inserts under the new
session key: identity, nickname and score from the durable row, answer
history and join instant from the old in-memory entry. -/
def migratedPlayerState (p : DbPlayer) (new_session_id : String) (now : Nat)
    (ops : PlayerState) : PlayerState where
  playerId := p.id
  userId := p.userId
  sessionId := new_session_id
  nickname := p.nickname
  score := p.score
  answers := ops.answers
  isActive := true
  joinedAt := ops.joinedAt
  lastSeen := now
  lastAnswerTime := ops.lastAnswerTime

/-- The in-memory migration of `handle_reconnect`: remove the entry at the
old session key and, when it existed, re-insert it under the new key. -/
def migrateGamePlayers (p : DbPlayer) (old_session_id new_session_id : String)
    (now : Nat) (gs : GameState) : GameState :=
  match alookup gs.players old_session_id with
  | none => gs
  | some ops =>
    let players1 := ainsert (aremove gs.players old_session_id) new_session_id (migratedPlayerState p new_session_id now ops)
    { gs with players := players1 }

/-- `handle_reconnect` (`websocket.rs` 1435-1651). -/
def handle_reconnect (conns : ConnMap) (db : Db) (games : GamesMap)
    (old_session_id new_session_id : String) (now : Nat) : HandlerResult :=
  match findPlayerBySession db old_session_id with
  | none => ⟨conns, db, games, [OutMsg.errorMsg "Önceki oturum bulunamadı"], []⟩
  | some (p, g) =>
    if p.isActive then
      ⟨conns, db, games, [OutMsg.errorMsg "Bu oturum zaten aktif"], []⟩
    else
      let db1 := reactivatePlayerDb db p.id new_session_id
      let db2 := bindConnDb db1 new_session_id p.userId p.gameId p.id
      let conns1 := aupdate (fun c =>
          { c with userId := p.userId, playerId := some p.id,
                   gameId := some p.gameId, gameCode := some g.code,
                   connectionType := "player" }) conns new_session_id
      let conns2 := aremove conns1 old_session_id
      let games1 := aupdate
        (migrateGamePlayers p old_session_id new_session_id now) games g.code
      let qMsgs :=
        if g.status = "active" then
          (match g.currentQuestion with
           | none => []
           | some cq =>
             match findQuestionByPos db g.questionSetId cq with
             | none => []
             | some q =>
               OutMsg.currentQuestionMsg (currentQuestionData q) ::
                 (match findAnswerRow db p.id q.id with
                  | none => []
                  | some a => [OutMsg.answerReceivedStored q.id a.answer
                      a.isCorrect a.pointsEarned])) ++
            (match getLeaderboard db2 games1 g.code with
             | none => []
             | some lb => [OutMsg.leaderboardUpdate lb])
        else []
      ⟨conns2, db2, games1,
       OutMsg.reconnectSuccess p.id g.code p.nickname p.score g.status
         g.currentQuestion :: qMsgs, []⟩

/-- `AppState::show_question_result` (`websocket.rs` 176-212): flips the
game to `Review`, then broadcasts `question_end` with the correct option
and the leaderboard; if the session, the current question or the
leaderboard cannot be resolved the broadcast is skipped (the `Review` flip,
performed first, still sticks). -/
def show_question_result (conns : ConnMap) (db : Db) (games : GamesMap)
    (game_code : String) : GamesMap × List (String × OutMsg) :=
  match alookup games game_code with
  | none => (games, [])
  | some g0 =>
    let games1 := aupdate (fun g => { g with state := ConnState.Review }) games game_code
    match findQuestionByPos db g0.questionSetId g0.currentQuestion with
    | none => (games1, [])
    | some q =>
      match getLeaderboard db games1 game_code with
      | none => (games1, [])
      | some lb =>
        (games1, broadcastToGame conns games1 game_code
          (OutMsg.questionEnd q.id q.correctOption lb))

/-- The codes `AppState::check_game_timers` snapshots on a tick: sessions in
`Question` phase whose start instant plus duration has passed. -/
def expiredCodes (games : GamesMap) (now : Nat) : List String :=
  (games.filter (fun cg =>
    decide (cg.2.state = ConnState.Question) &&
      (match cg.2.questionTimer, cg.2.questionDuration with
       | some t, some d => decide (t + d ≤ now)
       | _, _ => false))).map Prod.fst

/-- `AppState::check_game_timers`: runs `show_question_result` for each
expired session. -/
def check_game_timers (conns : ConnMap) (db : Db) (games : GamesMap) (now : Nat) :
    GamesMap × List (String × OutMsg) :=
  (expiredCodes games now).foldl
    (fun acc code =>
      let r := show_question_result conns db acc.1 code
      (r.1, acc.2 ++ r.2))
    (games, [])

/-! ### Generic lemmas about payloads and broadcasts -/

theorem getField_removeField (fields : List (String × JVal)) (k : String) :
    getField (removeField fields k) k = none := by
  induction fields with
  | nil => rfl
  | cons hd tl ih =>
    obtain ⟨k0, v0⟩ := hd
    by_cases h : k0 = k
    · simpa [removeField, List.filter_cons, h] using ih
    · simpa [removeField, List.filter_cons, h, getField] using ih

theorem mem_broadcastToGame {conns : ConnMap} {games : GamesMap} {code : String}
    {msg : OutMsg} {sid : String} {m : OutMsg}
    (h : (sid, m) ∈ broadcastToGame conns games code msg) : m = msg := by
  simp only [broadcastToGame, List.mem_map] at h
  obtain ⟨a, -, ha⟩ := h
  injection ha with h1 h2
  exact h2.symm

/-! ### C4: the `question_start` split -/

/-- C4: for every question loaded by `handle_next_question`, the
`question_start` payload broadcast to the session's players carries no
`correct_option` field, while the separate copy sent back on the host's own
connection always carries it. -/
theorem c4_question_start_split (conns : ConnMap) (db : Db) (games : GamesMap)
    (game_code session_id : String) (now : Nat) (g : DbGame) (ac : DbConn)
    (q : Question)
    (hg : findGameByCode db game_code = some g)
    (hc : findDbConn db session_id = some ac)
    (hhost : ac.userId = some g.hostId)
    (hq : findQuestionByPos db g.questionSetId (g.currentQuestion.getD (-1) + 1) = some q) :
    (∃ hp, (handle_next_question conns db games game_code session_id now).replies =
        [OutMsg.questionStart hp] ∧
        getField hp "correct_option" = some (JVal.str q.correctOption)) ∧
    (∀ sid msg,
      (sid, msg) ∈ (handle_next_question conns db games game_code session_id now).broadcasts →
      ∃ bp, msg = OutMsg.questionStart bp ∧ getField bp "correct_option" = none) := by
  have hne : ¬ (ac.userId ≠ some g.hostId) := by simp [hhost]
  constructor
  · refine ⟨hostQuestionStartData q (g.currentQuestion.getD (-1) + 1)
      (countQuestions db g.questionSetId), ?_, ?_⟩
    · simp only [handle_next_question, hg, hc, hq, hne, if_false, ite_not]
    · simp [hostQuestionStartData, getField]
  · intro sid msg hmem
    simp only [handle_next_question, hg, hc, hq, hne, if_false, ite_not] at hmem
    refine ⟨removeField (questionStartData q (g.currentQuestion.getD (-1) + 1)
      (countQuestions db g.questionSetId)) "correct_option",
      mem_broadcastToGame hmem, getField_removeField _ _⟩

/-! ### Concrete example states (used by witnesses and counterexamples) -/

/-- Question 7 of set 1 at position 0, correct option "A". -/
def exQ7 : Question := ⟨7, 1, 0, "2+2?", "4", "3", "2", "1", "A", some 30⟩

/-- Question 8 of set 1 at position 1, correct option "B". -/
def exQ8 : Question := ⟨8, 1, 1, "3*3?", "6", "9", "3", "1", "B", some 20⟩

/-- Game "G" (id 1), hosted by user 9, playing set 1, currently at
question position 0. -/
def exDbGameRow : DbGame := ⟨1, "G", 9, 1, "active", some 0, some 0, none⟩

/-- Guest player 1 on session "s1" in game 1. -/
def exDbPlayerRow : DbPlayer := ⟨1, 1, none, "**a", "s1", 0, true⟩

/-- The host's connection row (session "h", user 9, bound to game 1). -/
def exHostConnRow : DbConn := ⟨"h", some 9, some 1, none, "viewer"⟩

/-- The player's connection row. -/
def exPlayerConnRow : DbConn := ⟨"s1", none, some 1, some 1, "player"⟩

/-- Player 1's retained (incorrect) first answer to question 7. -/
def exAnswerRowB : DbAnswerRow := ⟨1, 7, "B", false, 3000, 0⟩

/-- Durable store in which player 1 has already answered question 7. -/
def exDbDup : Db :=
  ⟨[exDbGameRow], [exDbPlayerRow], [exQ7, exQ8], [exAnswerRowB],
   [exHostConnRow, exPlayerConnRow]⟩

/-- Durable store with no retained answers. -/
def exDbFresh : Db :=
  ⟨[exDbGameRow], [exDbPlayerRow], [exQ7, exQ8], [],
   [exHostConnRow, exPlayerConnRow]⟩

/-- The host's registry entry. -/
def exMemConnHost : MemConn := ⟨some 9, none, some 1, some "G", "viewer", 0⟩

/-- The player's registry entry. -/
def exMemConnPlayer : MemConn := ⟨none, some 1, some 1, some "G", "player", 0⟩

/-- Registry holding the host and the player. -/
def exConns : ConnMap := [("h", exMemConnHost), ("s1", exMemConnPlayer)]

/-- In-memory image of `exAnswerRowB`. -/
def exPlayerAnswerB : PlayerAnswer := ⟨7, some "B", false, 3000, 0⟩

/-- In-memory player state for player 1 (first answer recorded). -/
def exPlayerState : PlayerState :=
  ⟨1, none, "s1", "**a", 0, [(7, exPlayerAnswerB)], true, 0, 0, some 0⟩

/-- In-memory session "G" in `Question` phase at index 0, hosted by
session "h". -/
def exGameState : GameState :=
  ⟨1, "G", "h", 9, 1, [("s1", exPlayerState)], 0, ConnState.Question,
   some 0, none, some 0, some 30, 2⟩

/-- Session store holding session "G". -/
def exGames : GamesMap := [("G", exGameState)]

/-! ### C10 and C1: `handle_submit_answer` -/

/-- C10: for every connection mapped to a player row and every question id
present in the question store, `handle_submit_answer` scores the answer,
appends the durable answer row, adds the points to the player's durable
cumulative score and replies `answer_received` — with *no* hypothesis about
the owning session's phase (the `games` map is arbitrary, so the session
may be in lobby, review or ended), about the question being the session's
current question, or about the question belonging to the session's question
set (`hq` looks the question up globally by id). -/
theorem c10_submit_regardless (conns : ConnMap) (db : Db) (games : GamesMap)
    (question_id : Int) (answer : String) (rt : Int) (sid : String) (now : Nat)
    (p : DbPlayer) (g : DbGame) (q : Question)
    (hp : findPlayerForSubmit db sid = some (p, g))
    (hq : findQuestionById db question_id = some q)
    (hnew : findAnswerRow db p.id question_id = none) :
    (handle_submit_answer conns db games question_id answer rt sid now).replies =
      [OutMsg.answerReceived question_id answer.toUpper
        (answer.toUpper == q.correctOption)
        (computePoints (answer.toUpper == q.correctOption) rt)] ∧
    (handle_submit_answer conns db games question_id answer rt sid now).db.playerAnswers =
      db.playerAnswers ++
        [⟨p.id, question_id, answer.toUpper, answer.toUpper == q.correctOption, rt,
          computePoints (answer.toUpper == q.correctOption) rt⟩] ∧
    (handle_submit_answer conns db games question_id answer rt sid now).db.players =
      db.players.map (fun x =>
        if x.id = p.id then
          { x with score := x.score +
              computePoints (answer.toUpper == q.correctOption) rt }
        else x) := by
  refine ⟨?_, ?_, ?_⟩ <;>
    simp [handle_submit_answer, hp, hq, insertPlayerAnswer, hnew, addPlayerScore]

/-- C1, counterexample: the scenario of the spec (§8) — the player already
submitted "B" for question 7 (incorrect; correct option "A") and now
resubmits "A".  The answer-row insert fails, and `handle_submit_answer`
then does nothing at all: no error reply is sent (the claim requires the
duplicate to be "rejected with an error"); store and score are unchanged. -/
theorem c1_counterexample :
    handle_submit_answer exConns exDbDup exGames 7 "A" 100 "s1" 5 =
      ⟨exConns, exDbDup, exGames, [], []⟩ := rfl

/-- C1 (amended): after a first answer for a (player, question) pair is
retained, a second `submit_answer` for the pair leaves the durable store,
the in-memory tables and the player's cumulative score unchanged — the
stored Answer Record is not overwritten — but the duplicate is dropped
*silently*: the handler sends no reply at all, not an error. -/
theorem c1_duplicate_silently_dropped (conns : ConnMap) (db : Db) (games : GamesMap)
    (question_id : Int) (answer : String) (rt : Int) (sid : String) (now : Nat)
    (p : DbPlayer) (g : DbGame) (q : Question) (a : DbAnswerRow)
    (hp : findPlayerForSubmit db sid = some (p, g))
    (hq : findQuestionById db question_id = some q)
    (hdup : findAnswerRow db p.id question_id = some a) :
    handle_submit_answer conns db games question_id answer rt sid now =
      ⟨conns, db, games, [], []⟩ := by
  simp [handle_submit_answer, hp, hq, insertPlayerAnswer, hdup]

theorem c10_submit_regardless_witness :
    findPlayerForSubmit exDbFresh "s1" = some (exDbPlayerRow, exDbGameRow) ∧
    findQuestionById exDbFresh 7 = some exQ7 ∧
    findAnswerRow exDbFresh exDbPlayerRow.id 7 = none ∧
    ((handle_submit_answer exConns exDbFresh exGames 7 "a" 100 "s1" 5).replies =
      [OutMsg.answerReceived 7 "a".toUpper ("a".toUpper == exQ7.correctOption)
        (computePoints ("a".toUpper == exQ7.correctOption) 100)] ∧
     (handle_submit_answer exConns exDbFresh exGames 7 "a" 100 "s1" 5).db.playerAnswers =
      exDbFresh.playerAnswers ++
        [⟨exDbPlayerRow.id, 7, "a".toUpper, "a".toUpper == exQ7.correctOption, 100,
          computePoints ("a".toUpper == exQ7.correctOption) 100⟩] ∧
     (handle_submit_answer exConns exDbFresh exGames 7 "a" 100 "s1" 5).db.players =
      exDbFresh.players.map (fun x =>
        if x.id = exDbPlayerRow.id then
          { x with score := x.score +
              computePoints ("a".toUpper == exQ7.correctOption) 100 }
        else x)) :=
  ⟨rfl, rfl, rfl,
   c10_submit_regardless exConns exDbFresh exGames 7 "a" 100 "s1" 5
     exDbPlayerRow exDbGameRow exQ7 rfl rfl rfl⟩

theorem c1_duplicate_silently_dropped_witness :
    findPlayerForSubmit exDbDup "s1" = some (exDbPlayerRow, exDbGameRow) ∧
    findQuestionById exDbDup 7 = some exQ7 ∧
    findAnswerRow exDbDup exDbPlayerRow.id 7 = some exAnswerRowB ∧
    handle_submit_answer exConns exDbDup exGames 7 "A" 100 "s1" 5 =
      ⟨exConns, exDbDup, exGames, [], []⟩ :=
  ⟨rfl, rfl, rfl,
   c1_duplicate_silently_dropped exConns exDbDup exGames 7 "A" 100 "s1" 5
     exDbPlayerRow exDbGameRow exQ7 exAnswerRowB rfl rfl rfl⟩

theorem c4_question_start_split_witness :
    findGameByCode exDbFresh "G" = some exDbGameRow ∧
    findDbConn exDbFresh "h" = some exHostConnRow ∧
    exHostConnRow.userId = some exDbGameRow.hostId ∧
    findQuestionByPos exDbFresh exDbGameRow.questionSetId
      (exDbGameRow.currentQuestion.getD (-1) + 1) = some exQ8 ∧
    ((∃ hp, (handle_next_question exConns exDbFresh exGames "G" "h" 5).replies =
        [OutMsg.questionStart hp] ∧
        getField hp "correct_option" = some (JVal.str exQ8.correctOption)) ∧
     (∀ sid msg,
       (sid, msg) ∈ (handle_next_question exConns exDbFresh exGames "G" "h" 5).broadcasts →
       ∃ bp, msg = OutMsg.questionStart bp ∧ getField bp "correct_option" = none)) :=
  ⟨rfl, rfl, rfl, rfl,
   c4_question_start_split exConns exDbFresh exGames "G" "h" 5
     exDbGameRow exHostConnRow exQ8 rfl rfl rfl rfl⟩

/-! ### C7: non-host callers -/

/-- Second connection of host user 9. -/
def exHostConnRow2 : DbConn := ⟨"h2", some 9, none, none, "viewer"⟩

/-- Durable store in which the host user has two live connections. -/
def exDbTwoConn : Db :=
  ⟨[exDbGameRow], [exDbPlayerRow], [exQ7, exQ8], [],
   [exHostConnRow, exPlayerConnRow, exHostConnRow2]⟩

/-- Registry entry for the host's second connection. -/
def exMemConnHost2 : MemConn := ⟨some 9, none, none, none, "viewer", 0⟩

/-- Registry holding both host connections and the player. -/
def exConnsH2 : ConnMap :=
  [("h", exMemConnHost), ("s1", exMemConnPlayer), ("h2", exMemConnHost2)]

/-- C7, counterexample: authorization in `handle_start_game` /
`handle_next_question` is by *user id*, not by the session's current host
connection.  Here the host user 9 has a second connection "h2"; the
session's current host connection is "h" (`exGameState.hostSessionId`), so
"h2" is not the host connection, yet its `next_question` command is not
answered with a permission error and does change state: the durable current
question advances from 0 to 1 and the in-memory session re-enters
`Question` at index 1. -/
theorem c7_counterexample :
    exGameState.hostSessionId ≠ "h2" ∧
    (alookup exGames "G").map GameState.currentQuestion = some 0 ∧
    (handle_next_question exConnsH2 exDbTwoConn exGames "G" "h2" 5).replies =
      [OutMsg.questionStart (hostQuestionStartData exQ8 1 2)] ∧
    (findGameByCode (handle_next_question exConnsH2 exDbTwoConn exGames "G" "h2" 5).db
        "G").map DbGame.currentQuestion = some (some 1) ∧
    (alookup (handle_next_question exConnsH2 exDbTwoConn exGames "G" "h2" 5).games
        "G").map GameState.currentQuestion = some 1 :=
  ⟨by decide, rfl, rfl, rfl, rfl⟩

/-- C7 (amended): every caller of `start_game` or `next_question` whose
connection-registry row carries a user id different from the game's host
user id is answered with a permission error and causes no state change (the
code authorizes by host *user* identity; a second connection of the host
user is allowed through, per the counterexample). -/
theorem c7_nonhost_user_rejected (conns : ConnMap) (db : Db) (games : GamesMap)
    (game_code sid : String) (now : Nat) (g : DbGame) (ac : DbConn)
    (hg : findGameByCode db game_code = some g)
    (hc : findDbConn db sid = some ac)
    (hne : ac.userId ≠ some g.hostId) :
    handle_start_game conns db games game_code sid now =
      ⟨conns, db, games, [OutMsg.errorMsg "Sadece oyun sahibi oyunu başlatabilir"], []⟩ ∧
    handle_next_question conns db games game_code sid now =
      ⟨conns, db, games, [OutMsg.errorMsg "Sadece oyun sahibi soruları ilerletebilir"], []⟩ := by
  constructor
  · simp [handle_start_game, hg, hc, hne]
  · simp [handle_next_question, hg, hc, hne]

theorem c7_nonhost_user_rejected_witness :
    findGameByCode exDbFresh "G" = some exDbGameRow ∧
    findDbConn exDbFresh "s1" = some exPlayerConnRow ∧
    exPlayerConnRow.userId ≠ some exDbGameRow.hostId ∧
    (handle_start_game exConns exDbFresh exGames "G" "s1" 5 =
      ⟨exConns, exDbFresh, exGames,
       [OutMsg.errorMsg "Sadece oyun sahibi oyunu başlatabilir"], []⟩ ∧
     handle_next_question exConns exDbFresh exGames "G" "s1" 5 =
      ⟨exConns, exDbFresh, exGames,
       [OutMsg.errorMsg "Sadece oyun sahibi soruları ilerletebilir"], []⟩) :=
  ⟨rfl, rfl, by decide,
   c7_nonhost_user_rejected exConns exDbFresh exGames "G" "s1" 5
     exDbGameRow exPlayerConnRow rfl rfl (by decide)⟩

/-! ### C6: the advance past the last question -/

theorem findGameByCode_completeGameById (db : Db) (code : String) (g : DbGame)
    (now : Nat) (hg : findGameByCode db code = some g) :
    findGameByCode (completeGameById db g.id now) code =
      some { g with status := "completed", endedAt := some now } := by
  unfold findGameByCode at hg ⊢
  unfold completeGameById
  rw [List.find?_map _ db.games]
  have hpred : ((fun x : DbGame => decide (x.code = code)) ∘
      (fun x : DbGame => if x.id = g.id then
        { x with status := "completed", endedAt := some now } else x)) =
      (fun x : DbGame => decide (x.code = code)) := by
    funext x
    by_cases h : x.id = g.id <;> simp [h]
  rw [hpred, hg]
  simp

theorem leaderboardOf_sorted (db : Db) (gid : Int) :
    List.Sorted (fun a b : LeaderboardEntry => b.score ≤ a.score)
      (leaderboardOf db gid) := by
  unfold leaderboardOf
  have hs : List.Sorted scoreGe
      ((db.players.filter (fun p => p.gameId = gid && p.isActive)).insertionSort scoreGe) :=
    List.sorted_insertionSort scoreGe _
  have ht : List.Sorted scoreGe
      (((db.players.filter (fun p => p.gameId = gid && p.isActive)).insertionSort
        scoreGe).take 100) :=
    hs.sublist (List.take_sublist 100 _)
  exact List.Pairwise.map _ (fun a b hab => hab) ht

/-- C6: when the host advances and no question exists at the requested
position, the session transitions to `ended` (in memory), its completion is
persisted (durable status `completed`), and a `game_end` message whose
final leaderboard is sorted descending by cumulative score is broadcast to
the session. -/
theorem c6_final_advance_ends_game (conns : ConnMap) (db : Db) (games : GamesMap)
    (game_code sid : String) (now : Nat) (g : DbGame) (ac : DbConn) (gs : GameState)
    (hg : findGameByCode db game_code = some g)
    (hc : findDbConn db sid = some ac)
    (hhost : ac.userId = some g.hostId)
    (hnoq : findQuestionByPos db g.questionSetId (g.currentQuestion.getD (-1) + 1) = none)
    (hmem : alookup games game_code = some gs) :
    (alookup (handle_next_question conns db games game_code sid now).games game_code).map
        GameState.state = some ConnState.Ended ∧
    (findGameByCode (handle_next_question conns db games game_code sid now).db
        game_code).map DbGame.status = some "completed" ∧
    ∃ lb, List.Sorted (fun a b : LeaderboardEntry => b.score ≤ a.score) lb ∧
      (handle_next_question conns db games game_code sid now).broadcasts =
        broadcastToGame conns (handle_next_question conns db games game_code sid now).games
          game_code
          (OutMsg.gameEnd lb
            (playerStatsFor (handle_next_question conns db games game_code sid now).db g.id)) := by
  have hne : ¬ (ac.userId ≠ some g.hostId) := by simp [hhost]
  have hg1 : alookup (aupdate (endGameState now) games game_code)
      game_code = some (endGameState now gs) := by
    rw [alookup_aupdate]
    simp [hmem]
  have hlb : getLeaderboard (completeGameById db g.id now)
      (aupdate (endGameState now) games game_code) game_code =
      some (leaderboardOf (completeGameById db g.id now) (endGameState now gs).id) := by
    unfold getLeaderboard
    rw [hg1]
  have hred : handle_next_question conns db games game_code sid now =
      ⟨conns, completeGameById db g.id now,
       aupdate (endGameState now) games game_code,
       [],
       broadcastToGame conns
         (aupdate (endGameState now) games game_code) game_code
         (OutMsg.gameEnd (leaderboardOf (completeGameById db g.id now) (endGameState now gs).id)
           (playerStatsFor (completeGameById db g.id now) g.id))⟩ := by
    simp only [handle_next_question, hg, hc, hnoq, hne, if_false, ite_not, hlb]
  rw [hred]
  refine ⟨?_, ?_, leaderboardOf (completeGameById db g.id now) (endGameState now gs).id,
    leaderboardOf_sorted _ _, rfl⟩
  · rw [hg1]
    rfl
  · rw [findGameByCode_completeGameById db game_code g now hg]
    rfl

/-- Durable store at the last question (`current_question = 1`, and set 1
has no question at position 2). -/
def exDbLast : Db :=
  ⟨[{ exDbGameRow with currentQuestion := some 1 }], [exDbPlayerRow], [exQ7, exQ8], [],
   [exHostConnRow, exPlayerConnRow]⟩

theorem c6_final_advance_ends_game_witness :
    findGameByCode exDbLast "G" = some { exDbGameRow with currentQuestion := some 1 } ∧
    findDbConn exDbLast "h" = some exHostConnRow ∧
    exHostConnRow.userId = some ({ exDbGameRow with currentQuestion := some 1 } : DbGame).hostId ∧
    findQuestionByPos exDbLast
      ({ exDbGameRow with currentQuestion := some 1 } : DbGame).questionSetId
      (({ exDbGameRow with currentQuestion := some 1 } : DbGame).currentQuestion.getD (-1) + 1) =
      none ∧
    alookup exGames "G" = some exGameState ∧
    ((alookup (handle_next_question exConns exDbLast exGames "G" "h" 5).games "G").map
        GameState.state = some ConnState.Ended ∧
     (findGameByCode (handle_next_question exConns exDbLast exGames "G" "h" 5).db "G").map
        DbGame.status = some "completed" ∧
     ∃ lb, List.Sorted (fun a b : LeaderboardEntry => b.score ≤ a.score) lb ∧
       (handle_next_question exConns exDbLast exGames "G" "h" 5).broadcasts =
         broadcastToGame exConns (handle_next_question exConns exDbLast exGames "G" "h" 5).games
           "G"
           (OutMsg.gameEnd lb
             (playerStatsFor (handle_next_question exConns exDbLast exGames "G" "h" 5).db
               ({ exDbGameRow with currentQuestion := some 1 } : DbGame).id))) :=
  ⟨rfl, rfl, rfl, rfl, rfl,
   c6_final_advance_ends_game exConns exDbLast exGames "G" "h" 5
     { exDbGameRow with currentQuestion := some 1 } exHostConnRow exGameState
     rfl rfl rfl rfl rfl⟩

/-! ### More association-list lemmas -/

theorem alookup_ainsert {κ α : Type} [DecidableEq κ] (l : List (κ × α)) (k k' : κ) (v : α) :
    alookup (ainsert l k v) k' = if k' = k then some v else alookup l k' := by
  induction l with
  | nil =>
    by_cases h : k' = k
    · subst h
      simp [ainsert, alookup]
    · simp [ainsert, alookup, h, Ne.symm h]
  | cons hd tl ih =>
    obtain ⟨k0, v0⟩ := hd
    by_cases h0 : k0 = k
    · subst h0
      by_cases h1 : k' = k0
      · subst h1
        simp [ainsert, alookup]
      · simp [ainsert, alookup, h1, Ne.symm h1]
    · by_cases h1 : k0 = k'
      · subst h1
        have h0s : ¬ k = k0 := fun hh => h0 hh.symm
        simp [ainsert, alookup, h0, h0s]
      · simp [ainsert, alookup, h0, h1, ih]

theorem alookup_aremove_ne {κ α : Type} [DecidableEq κ] (l : List (κ × α)) (k k' : κ)
    (h : k' ≠ k) : alookup (aremove l k) k' = alookup l k' := by
  induction l with
  | nil => rfl
  | cons hd tl ih =>
    obtain ⟨k0, v0⟩ := hd
    by_cases h0 : k0 = k
    · subst h0
      have hs : ¬ k0 = k' := fun hh => h hh.symm
      simp [aremove, alookup, hs]
    · by_cases h1 : k0 = k'
      · subst h1
        simp [aremove, alookup, h0]
      · simp [aremove, alookup, h0, h1, ih]

theorem aupdate_keys {κ α : Type} [DecidableEq κ] (f : α → α) (l : List (κ × α)) (k : κ) :
    (aupdate f l k).map Prod.fst = l.map Prod.fst := by
  induction l with
  | nil => rfl
  | cons hd tl ih =>
    obtain ⟨k0, v0⟩ := hd
    by_cases h0 : k0 = k <;> simp [aupdate, h0, ih]

theorem alookup_mem_keys {κ α : Type} [DecidableEq κ] {l : List (κ × α)} {k : κ} {v : α}
    (h : alookup l k = some v) : k ∈ l.map Prod.fst := by
  induction l with
  | nil => simp [alookup] at h
  | cons hd tl ih =>
    obtain ⟨k0, v0⟩ := hd
    by_cases h0 : k0 = k
    · simp [h0]
    · simp only [alookup, h0, if_false] at h
      simp [ih h]

/-! ### C5: host-connection loss -/

/-- C5, counterexample: the session's current host connection "h" is lost,
but since "h" is not a key of the session's `players` sub-table (the host
never joined as a player), the disconnect cleanup finds no game to update:
nobody is notified, the durable row stays `active`, and the in-memory
session stays in `Question` phase — the session is not forced to `ended`. -/
theorem c5_counterexample :
    exGameState.hostSessionId = "h" ∧
    (websocket_disconnect exConns exDbFresh exGames "h" 9).broadcasts = [] ∧
    (findGameByCode (websocket_disconnect exConns exDbFresh exGames "h" 9).db "G").map
      DbGame.status = some "active" ∧
    (alookup (websocket_disconnect exConns exDbFresh exGames "h" 9).games "G").map
      GameState.state = some ConnState.Question :=
  ⟨rfl, rfl, rfl, rfl⟩

theorem findGameByCode_completeGameByCode (db : Db) (code : String) (dg : DbGame)
    (now : Nat) (hg : findGameByCode db code = some dg) :
    findGameByCode (completeGameByCode db code now) code =
      some { dg with status := "completed", endedAt := some now } := by
  have hp : dg.code = code := by
    have := List.find?_some hg
    exact of_decide_eq_true this
  unfold findGameByCode at hg ⊢
  unfold completeGameByCode
  rw [List.find?_map _ db.games]
  have hpred : ((fun x : DbGame => decide (x.code = code)) ∘
      (fun x : DbGame => if x.code = code then
        { x with status := "completed", endedAt := some now } else x)) =
      (fun x : DbGame => decide (x.code = code)) := by
    funext x
    by_cases h : x.code = code <;> simp [h]
  rw [hpred, hg]
  simp [hp]

/-- C5 (amended): when the lost connection is the session's current host
connection *and* is also registered as a player of that session (a key of
its `players` sub-table), the durable session row is marked completed and
every remaining registered participant of the session receives the forced
`game_end` notification with the distinct reason `host_left`; the
in-memory phase field, however, is left unchanged (the session is not moved
to `Ended` in memory).  When the host is not among the players, nothing
happens at all (see the counterexample). -/
theorem c5_host_disconnect (conns : ConnMap) (db : Db) (games : GamesMap)
    (sid : String) (now : Nat) (code : String) (gs : GameState) (dg : DbGame)
    (hfind : games.find? (fun cg => (alookup cg.2.players sid).isSome) = some (code, gs))
    (hmem : alookup games code = some gs)
    (hhost : gs.hostSessionId = sid)
    (hdbg : findGameByCode db code = some dg) :
    (findGameByCode (websocket_disconnect conns db games sid now).db code).map
        DbGame.status = some "completed" ∧
    (alookup (websocket_disconnect conns db games sid now).games code).map
        GameState.state = some gs.state ∧
    (∀ psid ps, alookup gs.players psid = some ps → psid ≠ sid →
      (alookup conns psid).isSome →
      (psid, OutMsg.gameEndForced "host_left") ∈
        (websocket_disconnect conns db games sid now).broadcasts) := by
  have hmem1 : alookup (aupdate (markPlayerInactive sid) games code) code =
      some (markPlayerInactive sid gs) := by
    rw [alookup_aupdate]
    simp [hmem]
  have hred : websocket_disconnect conns db games sid now =
      ⟨aremove conns sid, completeGameByCode (deleteConnDb db sid) code now,
       aupdate (markPlayerInactive sid) games code,
       [],
       broadcastToGame (aremove conns sid)
         (aupdate (markPlayerInactive sid) games code) code
         (OutMsg.gameEndForced "host_left")⟩ := by
    simp only [websocket_disconnect, hfind, hmem1]
    have hh : (markPlayerInactive sid gs).hostSessionId = sid := hhost
    rw [if_pos hh]
  rw [hred]
  have hdbg1 : findGameByCode (deleteConnDb db sid) code = some dg := hdbg
  refine ⟨?_, ?_, ?_⟩
  · rw [findGameByCode_completeGameByCode (deleteConnDb db sid) code dg now hdbg1]
    rfl
  · rw [hmem1]
    rfl
  · intro psid ps hps hne hconn
    simp only [broadcastToGame, sessionRecipients, hmem1, List.mem_map]
    refine ⟨psid, ?_, rfl⟩
    apply List.mem_append_left
    rw [List.mem_filter]
    refine ⟨?_, ?_⟩
    · show psid ∈ (markPlayerInactive sid gs).players.map Prod.fst
      unfold markPlayerInactive
      rw [aupdate_keys]
      exact alookup_mem_keys hps
    · rw [alookup_aremove_ne conns sid psid hne, hconn]

/-- Host's own in-memory player state (the host joined the lobby). -/
def exPlayerStateHost : PlayerState := ⟨2, some 9, "h", "hostnick", 0, [], true, 0, 0, none⟩

/-- In-memory session whose host session "h" is also one of its players. -/
def exGameStateHostIn : GameState :=
  ⟨1, "G", "h", 9, 1, [("s1", exPlayerState), ("h", exPlayerStateHost)], 0,
   ConnState.Question, some 0, none, some 0, some 30, 2⟩

/-- Session store holding `exGameStateHostIn`. -/
def exGamesHostIn : GamesMap := [("G", exGameStateHostIn)]

theorem c5_host_disconnect_witness :
    exGamesHostIn.find? (fun cg => (alookup cg.2.players "h").isSome) =
      some ("G", exGameStateHostIn) ∧
    alookup exGamesHostIn "G" = some exGameStateHostIn ∧
    exGameStateHostIn.hostSessionId = "h" ∧
    findGameByCode exDbFresh "G" = some exDbGameRow ∧
    ((findGameByCode (websocket_disconnect exConns exDbFresh exGamesHostIn "h" 9).db "G").map
        DbGame.status = some "completed" ∧
     (alookup (websocket_disconnect exConns exDbFresh exGamesHostIn "h" 9).games "G").map
        GameState.state = some exGameStateHostIn.state ∧
     (∀ psid ps, alookup exGameStateHostIn.players psid = some ps → psid ≠ "h" →
       (alookup exConns psid).isSome →
       (psid, OutMsg.gameEndForced "host_left") ∈
         (websocket_disconnect exConns exDbFresh exGamesHostIn "h" 9).broadcasts)) :=
  ⟨rfl, rfl, rfl, rfl,
   c5_host_disconnect exConns exDbFresh exGamesHostIn "h" 9 "G" exGameStateHostIn
     exDbGameRow rfl rfl rfl rfl⟩

/-! ### C8: reconnection -/

/-- C8: reconnecting an inactive player migrates the in-memory Player State
from the old session key to the new one with exactly the same cumulative
score, the same answer map, the same player id, user id, nickname and join
timestamp; only the session identifier, the active flag and the last-seen
timestamp change.  The coherence hypotheses (`hid`, `huid`, `hnick`,
`hscore`) say the durable player row agrees with the in-memory entry, which
is how every reachable state looks, since both are written together. -/
theorem c8_reconnect_preserves (conns : ConnMap) (db : Db) (games : GamesMap)
    (old_sid new_sid : String) (now : Nat) (p : DbPlayer) (g : DbGame)
    (gs : GameState) (ops : PlayerState)
    (hp : findPlayerBySession db old_sid = some (p, g))
    (hinactive : p.isActive = false)
    (hmem : alookup games g.code = some gs)
    (hops : alookup gs.players old_sid = some ops)
    (hid : ops.playerId = p.id) (huid : ops.userId = p.userId)
    (hnick : ops.nickname = p.nickname) (hscore : ops.score = p.score)
    (hne : new_sid ≠ old_sid)
    (honce : alookup (aremove gs.players old_sid) old_sid = none) :
    ∃ gs', alookup (handle_reconnect conns db games old_sid new_sid now).games g.code =
        some gs' ∧
      alookup gs'.players new_sid =
        some { ops with sessionId := new_sid, isActive := true, lastSeen := now } ∧
      alookup gs'.players old_sid = none := by
  have hmig : migratedPlayerState p new_sid now ops =
      { ops with sessionId := new_sid, isActive := true, lastSeen := now } := by
    unfold migratedPlayerState
    simp [hid, huid, hnick, hscore]
  refine ⟨migrateGamePlayers p old_sid new_sid now gs, ?_, ?_, ?_⟩
  · simp only [handle_reconnect, hp, hinactive, Bool.false_eq_true, if_false]
    rw [alookup_aupdate]
    simp [hmem]
  · unfold migrateGamePlayers
    rw [hops]
    simp only [alookup_ainsert, if_pos rfl, hmig, if_true]
  · unfold migrateGamePlayers
    rw [hops]
    simp only [alookup_ainsert]
    have hne' : ¬ old_sid = new_sid := fun hh => hne hh.symm
    simp only [hne', if_false]
    exact honce

/-- Durable row of player 1 after disconnecting (inactive, score 550). -/
def exDbPlayerInactive : DbPlayer := ⟨1, 1, none, "**a", "s1", 550, false⟩

/-- Durable store before player 1 reconnects from session "s2". -/
def exDbReconn : Db :=
  ⟨[exDbGameRow], [exDbPlayerInactive], [exQ7, exQ8], [exAnswerRowB],
   [exHostConnRow, ⟨"s2", none, none, none, "viewer"⟩]⟩

/-- In-memory player state of the disconnected player (score 550, one
answer retained). -/
def exPlayerState550 : PlayerState :=
  ⟨1, none, "s1", "**a", 550, [(7, exPlayerAnswerB)], false, 0, 0, some 0⟩

/-- In-memory session holding the disconnected player. -/
def exGameStateReconn : GameState :=
  ⟨1, "G", "h", 9, 1, [("s1", exPlayerState550)], 0, ConnState.Question,
   some 0, none, some 0, some 30, 2⟩

/-- Session store for the reconnection scenario. -/
def exGamesReconn : GamesMap := [("G", exGameStateReconn)]

theorem c8_reconnect_preserves_witness :
    findPlayerBySession exDbReconn "s1" = some (exDbPlayerInactive, exDbGameRow) ∧
    exDbPlayerInactive.isActive = false ∧
    alookup exGamesReconn exDbGameRow.code = some exGameStateReconn ∧
    alookup exGameStateReconn.players "s1" = some exPlayerState550 ∧
    exPlayerState550.playerId = exDbPlayerInactive.id ∧
    exPlayerState550.userId = exDbPlayerInactive.userId ∧
    exPlayerState550.nickname = exDbPlayerInactive.nickname ∧
    exPlayerState550.score = exDbPlayerInactive.score ∧
    ("s2" : String) ≠ "s1" ∧
    alookup (aremove exGameStateReconn.players "s1") "s1" = none ∧
    (∃ gs', alookup (handle_reconnect exConns exDbReconn exGamesReconn "s1" "s2" 9).games
        exDbGameRow.code = some gs' ∧
      alookup gs'.players "s2" =
        some { exPlayerState550 with sessionId := "s2", isActive := true, lastSeen := 9 } ∧
      alookup gs'.players "s1" = none) :=
  ⟨rfl, rfl, rfl, rfl, rfl, rfl, rfl, rfl, by decide, rfl,
   c8_reconnect_preserves exConns exDbReconn exGamesReconn "s1" "s2" 9
     exDbPlayerInactive exDbGameRow exGameStateReconn exPlayerState550
     rfl rfl rfl rfl rfl rfl rfl rfl (by decide) rfl⟩

/-! ### C9: monotonicity of the current question index

The operations the spec quantifies over — advance commands, timer ticks,
answer submissions and reconnections — are collected in a step relation
over the whole engine state. -/

/-- One engine operation. -/
inductive Op : Type
  | nextQuestion (code sid : String)
  | timerTick
  | submitAnswer (qid : Int) (ans : String) (rt : Int) (sid : String)
  | reconnect (oldSid newSid : String)

/-- The whole engine state: registry, durable store, session store, and the
current instant. -/
structure Sys where
  conns : ConnMap
  db : Db
  games : GamesMap
  now : Nat

/-- Apply one operation through the corresponding handler. -/
def step (s : Sys) (op : Op) : Sys :=
  match op with
  | Op.nextQuestion code sid =>
    let r := handle_next_question s.conns s.db s.games code sid s.now
    { s with conns := r.conns, db := r.db, games := r.games }
  | Op.timerTick =>
    { s with games := (check_game_timers s.conns s.db s.games s.now).1 }
  | Op.submitAnswer qid ans rt sid =>
    let r := handle_submit_answer s.conns s.db s.games qid ans rt sid s.now
    { s with conns := r.conns, db := r.db, games := r.games }
  | Op.reconnect o n =>
    let r := handle_reconnect s.conns s.db s.games o n s.now
    { s with conns := r.conns, db := r.db, games := r.games }

/-- Run a sequence of operations. -/
def run (s : Sys) (ops : List Op) : Sys := ops.foldl step s

/-- The in-memory session's index is bounded by its durable row's index
(`handle_next_question` reads the index from the durable row and writes
both). -/
def gameBoundB (db : Db) (cg : String × GameState) : Bool :=
  match findGameByCode db cg.1 with
  | some dg => decide (cg.2.currentQuestion ≤ dg.currentQuestion.getD (-1))
  | none => false

/-- System invariant: durable game rows have pairwise-distinct primary keys,
and every in-memory session is index-bounded by its durable row. -/
def sysInv (s : Sys) : Prop :=
  List.Pairwise (fun a b : DbGame => a.id ≠ b.id) s.db.games ∧
  ∀ cg ∈ s.games, gameBoundB s.db cg = true

instance (s : Sys) : Decidable (sysInv s) := by
  unfold sysInv
  infer_instance

theorem gameBoundB_iff (db : Db) (cg : String × GameState) :
    gameBoundB db cg = true ↔
      ∃ dg, findGameByCode db cg.1 = some dg ∧
        cg.2.currentQuestion ≤ dg.currentQuestion.getD (-1) := by
  unfold gameBoundB
  cases h : findGameByCode db cg.1 <;> simp [h]

theorem alookup_mem {κ α : Type} [DecidableEq κ] {l : List (κ × α)} {k : κ} {v : α}
    (h : alookup l k = some v) : (k, v) ∈ l := by
  induction l with
  | nil => simp [alookup] at h
  | cons hd tl ih =>
    obtain ⟨k0, v0⟩ := hd
    by_cases h0 : k0 = k
    · subst h0
      simp only [alookup, if_pos rfl] at h
      injection h with h
      subst h
      exact List.mem_cons_self _ _
    · simp only [alookup, h0, if_false] at h
      exact List.mem_cons_of_mem _ (ih h)

/-- Lookup-level equality of current question indices between two session
stores. -/
def lookupCqEq (g1 g2 : GamesMap) : Prop :=
  ∀ c, (alookup g2 c).map GameState.currentQuestion =
    (alookup g1 c).map GameState.currentQuestion

theorem lookupCqEq_refl (g : GamesMap) : lookupCqEq g g := fun _ => rfl

theorem lookupCqEq_trans {g1 g2 g3 : GamesMap}
    (h12 : lookupCqEq g1 g2) (h23 : lookupCqEq g2 g3) : lookupCqEq g1 g3 :=
  fun c => (h23 c).trans (h12 c)

theorem lookupCqEq_aupdate (f : GameState → GameState)
    (hf : ∀ x, (f x).currentQuestion = x.currentQuestion)
    (games : GamesMap) (code : String) :
    lookupCqEq games (aupdate f games code) := by
  intro c
  rw [alookup_aupdate]
  by_cases h : c = code
  · cases halt : alookup games c <;> simp [h, halt, hf]
  · simp [h]

theorem findGameByCode_games_map (db : Db) (f : DbGame → DbGame) (c : String)
    (hcode : ∀ x, (f x).code = x.code) :
    findGameByCode { db with games := db.games.map f } c =
      (findGameByCode db c).map f := by
  unfold findGameByCode
  rw [List.find?_map f db.games]
  have hpred : ((fun x : DbGame => decide (x.code = c)) ∘ f) =
      (fun x : DbGame => decide (x.code = c)) := by
    funext x
    simp [hcode]
  rw [hpred]

theorem show_question_result_games (conns : ConnMap) (db : Db) (games : GamesMap)
    (code : String) :
    lookupCqEq games (show_question_result conns db games code).1 := by
  unfold show_question_result
  cases h0 : alookup games code with
  | none => exact lookupCqEq_refl games
  | some g0 =>
    dsimp only
    have hupd := lookupCqEq_aupdate
      (fun g => { g with state := ConnState.Review }) (fun x => rfl) games code
    cases h1 : findQuestionByPos db g0.questionSetId g0.currentQuestion with
    | none => exact hupd
    | some q =>
      dsimp only
      cases h2 : getLeaderboard db
          (aupdate (fun g => { g with state := ConnState.Review }) games code) code with
      | none => exact hupd
      | some lb => exact hupd

theorem timers_fold_games (conns : ConnMap) (db : Db) (codes : List String) :
    ∀ (games : GamesMap) (msgs : List (String × OutMsg)),
      lookupCqEq games
        (codes.foldl (fun acc code =>
          let r := show_question_result conns db acc.1 code
          (r.1, acc.2 ++ r.2)) (games, msgs)).1 := by
  induction codes with
  | nil =>
    intro games msgs
    exact lookupCqEq_refl games
  | cons c cs ih =>
    intro games msgs
    simp only [List.foldl_cons]
    exact lookupCqEq_trans (show_question_result_games conns db games c) (ih _ _)

theorem check_game_timers_games (conns : ConnMap) (db : Db) (games : GamesMap)
    (now : Nat) : lookupCqEq games (check_game_timers conns db games now).1 := by
  unfold check_game_timers
  exact timers_fold_games conns db (expiredCodes games now) games []

/-- Membership-level evolution of a session store: every entry of the new
store is an old entry, possibly with a changed value at an unchanged
current-question index. -/
def memCqPreserved (g1 g2 : GamesMap) : Prop :=
  ∀ cg ∈ g2, cg ∈ g1 ∨ ∃ v, (cg.1, v) ∈ g1 ∧ cg.2.currentQuestion = v.currentQuestion

theorem mem_aupdate {κ α : Type} [DecidableEq κ] {f : α → α} {l : List (κ × α)} {k : κ}
    {cg : κ × α} (h : cg ∈ aupdate f l k) :
    cg ∈ l ∨ (cg.1 = k ∧ ∃ v, (k, v) ∈ l ∧ cg.2 = f v) := by
  induction l with
  | nil => simp [aupdate] at h
  | cons hd tl ih =>
    obtain ⟨k0, v0⟩ := hd
    by_cases h0 : k0 = k
    · subst h0
      simp only [aupdate, if_pos rfl] at h
      rcases List.mem_cons.mp h with h1 | h1
      · subst h1
        exact Or.inr ⟨rfl, v0, List.mem_cons_self _ _, rfl⟩
      · exact Or.inl (List.mem_cons_of_mem _ h1)
    · simp only [aupdate, h0, if_false] at h
      rcases List.mem_cons.mp h with h1 | h1
      · subst h1
        exact Or.inl (List.mem_cons_self _ _)
      · rcases ih h1 with h2 | ⟨hk, v, hv, he⟩
        · exact Or.inl (List.mem_cons_of_mem _ h2)
        · exact Or.inr ⟨hk, v, List.mem_cons_of_mem _ hv, he⟩

theorem memCqPreserved_refl (g : GamesMap) : memCqPreserved g g :=
  fun _ h => Or.inl h

theorem memCqPreserved_trans {g1 g2 g3 : GamesMap}
    (h12 : memCqPreserved g1 g2) (h23 : memCqPreserved g2 g3) :
    memCqPreserved g1 g3 := by
  intro cg h3
  rcases h23 cg h3 with h2 | ⟨v, hv2, he⟩
  · exact h12 cg h2
  · rcases h12 (cg.1, v) hv2 with h1 | ⟨w, hw1, he2⟩
    · exact Or.inr ⟨v, h1, he⟩
    · exact Or.inr ⟨w, hw1, he.trans he2⟩

theorem memCqPreserved_aupdate (f : GameState → GameState)
    (hf : ∀ x, (f x).currentQuestion = x.currentQuestion)
    (games : GamesMap) (code : String) :
    memCqPreserved games (aupdate f games code) := by
  intro cg h
  rcases mem_aupdate h with h1 | ⟨hk, v, hv, he⟩
  · exact Or.inl h1
  · refine Or.inr ⟨v, ?_, ?_⟩
    · rw [hk]
      exact hv
    · rw [he, hf]

theorem show_question_result_mem (conns : ConnMap) (db : Db) (games : GamesMap)
    (code : String) :
    memCqPreserved games (show_question_result conns db games code).1 := by
  unfold show_question_result
  cases h0 : alookup games code with
  | none => exact memCqPreserved_refl games
  | some g0 =>
    dsimp only
    have hupd := memCqPreserved_aupdate
      (fun g => { g with state := ConnState.Review }) (fun x => rfl) games code
    cases h1 : findQuestionByPos db g0.questionSetId g0.currentQuestion with
    | none => exact hupd
    | some q =>
      dsimp only
      cases h2 : getLeaderboard db
          (aupdate (fun g => { g with state := ConnState.Review }) games code) code with
      | none => exact hupd
      | some lb => exact hupd

theorem timers_fold_mem (conns : ConnMap) (db : Db) (codes : List String) :
    ∀ (games : GamesMap) (msgs : List (String × OutMsg)),
      memCqPreserved games
        (codes.foldl (fun acc code =>
          let r := show_question_result conns db acc.1 code
          (r.1, acc.2 ++ r.2)) (games, msgs)).1 := by
  induction codes with
  | nil =>
    intro games msgs
    exact memCqPreserved_refl games
  | cons c cs ih =>
    intro games msgs
    simp only [List.foldl_cons]
    exact memCqPreserved_trans (show_question_result_mem conns db games c) (ih _ _)

theorem check_game_timers_mem (conns : ConnMap) (db : Db) (games : GamesMap)
    (now : Nat) : memCqPreserved games (check_game_timers conns db games now).1 := by
  unfold check_game_timers
  exact timers_fold_mem conns db (expiredCodes games now) games []

/-- Shape of `handle_submit_answer`'s effect on the two game tables: the
durable `games` rows are untouched and the session store is either
unchanged or one entry is updated without touching its index. -/
theorem submit_outcome (conns : ConnMap) (db : Db) (games : GamesMap)
    (qid : Int) (ans : String) (rt : Int) (sid : String) (now : Nat) :
    (handle_submit_answer conns db games qid ans rt sid now).db.games = db.games ∧
    ((handle_submit_answer conns db games qid ans rt sid now).games = games ∨
      ∃ gcode f, (∀ x : GameState, (f x).currentQuestion = x.currentQuestion) ∧
        (handle_submit_answer conns db games qid ans rt sid now).games =
          aupdate f games gcode) := by
  unfold handle_submit_answer
  cases hfp : findPlayerForSubmit db sid with
  | none => exact ⟨rfl, Or.inl rfl⟩
  | some pg =>
    obtain ⟨p, g⟩ := pg
    dsimp only
    cases hfq : findQuestionById db qid with
    | none => exact ⟨rfl, Or.inl rfl⟩
    | some q =>
      dsimp only
      cases hins : insertPlayerAnswer db
          ⟨p.id, qid, ans.toUpper, ans.toUpper == q.correctOption, rt,
           computePoints (ans.toUpper == q.correctOption) rt⟩ with
      | none => exact ⟨rfl, Or.inl rfl⟩
      | some db1 =>
        dsimp only
        have hdb1 : db1.games = db.games := by
          unfold insertPlayerAnswer at hins
          by_cases hdup : (findAnswerRow db p.id qid).isSome
          · simp [hdup] at hins
          · simp only [hdup, if_false] at hins
            injection hins with hins
            rw [← hins]
        refine ⟨hdb1, Or.inr ⟨g.code, _, ?_, rfl⟩⟩
        intro x
        rfl

/-- Shape of `handle_reconnect`'s effect on the two game tables. -/
theorem reconnect_outcome (conns : ConnMap) (db : Db) (games : GamesMap)
    (o n : String) (now : Nat) :
    (handle_reconnect conns db games o n now).db.games = db.games ∧
    ((handle_reconnect conns db games o n now).games = games ∨
      ∃ gcode f, (∀ x : GameState, (f x).currentQuestion = x.currentQuestion) ∧
        (handle_reconnect conns db games o n now).games = aupdate f games gcode) := by
  unfold handle_reconnect
  cases hfp : findPlayerBySession db o with
  | none => exact ⟨rfl, Or.inl rfl⟩
  | some pg =>
    obtain ⟨p, g⟩ := pg
    dsimp only
    cases hact : p.isActive with
    | true => exact ⟨rfl, Or.inl rfl⟩
    | false =>
      refine ⟨rfl, Or.inr ⟨g.code, migrateGamePlayers p o n now, ?_, rfl⟩⟩
      intro x
      unfold migrateGamePlayers
      cases alookup x.players o <;> rfl

/-- Shape of `handle_next_question`'s effect on the two game tables: it
either changes nothing, or it ends the game (indices untouched), or it
advances the durable row found by code — and the in-memory entry at that
code — to that row's index plus one. -/
theorem next_question_outcome (conns : ConnMap) (db : Db) (games : GamesMap)
    (code sid : String) (now : Nat) :
    ((handle_next_question conns db games code sid now).db = db ∧
     (handle_next_question conns db games code sid now).games = games) ∨
    (∃ dg, findGameByCode db code = some dg ∧
      (handle_next_question conns db games code sid now).db =
        completeGameById db dg.id now ∧
      (handle_next_question conns db games code sid now).games =
        aupdate (endGameState now) games code) ∨
    (∃ dg q, findGameByCode db code = some dg ∧
      findQuestionByPos db dg.questionSetId (dg.currentQuestion.getD (-1) + 1) = some q ∧
      (handle_next_question conns db games code sid now).db =
        setCurrentQuestionDb db dg.id (dg.currentQuestion.getD (-1) + 1) ∧
      (handle_next_question conns db games code sid now).games =
        aupdate (advanceGameState (dg.currentQuestion.getD (-1) + 1) now q) games code) := by
  cases hfg : findGameByCode db code with
  | none =>
    left
    constructor <;> simp [handle_next_question, hfg]
  | some dg =>
    cases hfc : findDbConn db sid with
    | none =>
      left
      constructor <;> simp [handle_next_question, hfg, hfc]
    | some ac =>
      by_cases hhost : ac.userId = some dg.hostId
      · have hne : ¬ (ac.userId ≠ some dg.hostId) := by simp [hhost]
        cases hq : findQuestionByPos db dg.questionSetId (dg.currentQuestion.getD (-1) + 1) with
        | some q =>
          right
          right
          refine ⟨dg, q, rfl, hq, ?_, ?_⟩ <;>
            simp [handle_next_question, hfg, hfc, hq, hne]
        | none =>
          right
          left
          refine ⟨dg, rfl, ?_, ?_⟩ <;>
          · simp only [handle_next_question, hfg, hfc, hq, hne, if_false, ite_not]
            cases hlb : getLeaderboard (completeGameById db dg.id now)
                (aupdate (endGameState now) games code) code <;> simp
      · left
        constructor <;> simp [handle_next_question, hfg, hfc, hhost]

theorem gameBoundB_games_map (db : Db) (f : DbGame → DbGame) (cg : String × GameState)
    (hcode : ∀ x, (f x).code = x.code)
    (hcq : ∀ x, (f x).currentQuestion = x.currentQuestion) :
    gameBoundB { db with games := db.games.map f } cg = gameBoundB db cg := by
  unfold gameBoundB
  rw [findGameByCode_games_map db f cg.1 hcode]
  cases h : findGameByCode db cg.1 <;> simp [hcq]

theorem pairwise_ids_map (l : List DbGame) (f : DbGame → DbGame)
    (hid : ∀ x, (f x).id = x.id)
    (h : List.Pairwise (fun a b : DbGame => a.id ≠ b.id) l) :
    List.Pairwise (fun a b : DbGame => a.id ≠ b.id) (l.map f) := by
  refine List.Pairwise.map f ?_ h
  intro a b hab
  rw [hid, hid]
  exact hab

/-- With pairwise-distinct ids, a row found by one code cannot share its id
with a row found by a different code. -/
theorem distinct_codes_distinct_ids (db : Db)
    (hpw : List.Pairwise (fun a b : DbGame => a.id ≠ b.id) db.games)
    {c1 c2 : String} {d1 d2 : DbGame}
    (h1 : findGameByCode db c1 = some d1) (h2 : findGameByCode db c2 = some d2)
    (hne : c1 ≠ c2) : d1.id ≠ d2.id := by
  intro hid
  unfold findGameByCode at h1 h2
  have hm1 : d1 ∈ db.games := List.mem_of_find?_eq_some h1
  have hm2 : d2 ∈ db.games := List.mem_of_find?_eq_some h2
  have hc1 : d1.code = c1 := by simpa using List.find?_some h1
  have hc2 : d2.code = c2 := by simpa using List.find?_some h2
  have hdne : d1 ≠ d2 := by
    intro he
    apply hne
    rw [← hc1, ← hc2, he]
  have hsymm : Symmetric (fun a b : DbGame => a.id ≠ b.id) := by
    intro a b hab
    exact fun he => hab he.symm
  exact (hpw.forall hsymm hm1 hm2 hdne) hid

theorem findGameByCode_congr {db1 db2 : Db} (h : db1.games = db2.games) (c : String) :
    findGameByCode db1 c = findGameByCode db2 c := by
  unfold findGameByCode
  rw [h]

theorem gameBoundB_congr {db1 db2 : Db} (h : db1.games = db2.games)
    (cg : String × GameState) : gameBoundB db1 cg = gameBoundB db2 cg := by
  unfold gameBoundB
  rw [findGameByCode_congr h]

theorem gameBoundB_cq {db : Db} {cg : String × GameState} {v : GameState}
    (h : cg.2.currentQuestion = v.currentQuestion) :
    gameBoundB db cg = gameBoundB db (cg.1, v) := by
  unfold gameBoundB
  cases hf : findGameByCode db cg.1 <;> simp [h]

/-- Invariant preservation and index monotonicity for any step whose
durable-row bounds are untouched and whose session-store update preserves
every index. -/
theorem inv_mono_generic (s s' : Sys) (hinv : sysInv s)
    (hpw' : List.Pairwise (fun a b : DbGame => a.id ≠ b.id) s.db.games →
      List.Pairwise (fun a b : DbGame => a.id ≠ b.id) s'.db.games)
    (hbb : ∀ cg, gameBoundB s'.db cg = gameBoundB s.db cg)
    (hmem : memCqPreserved s.games s'.games)
    (hlk : lookupCqEq s.games s'.games) :
    sysInv s' ∧
    ∀ c g, alookup s.games c = some g →
      ∃ g', alookup s'.games c = some g' ∧ g.currentQuestion ≤ g'.currentQuestion := by
  obtain ⟨hpw, hbd⟩ := hinv
  refine ⟨⟨hpw' hpw, ?_⟩, ?_⟩
  · intro cg hcg
    rw [hbb]
    rcases hmem cg hcg with h1 | ⟨v, hv, he⟩
    · exact hbd cg h1
    · rw [gameBoundB_cq he]
      exact hbd (cg.1, v) hv
  · intro c g hg
    have hl := hlk c
    rw [hg] at hl
    cases h' : alookup s'.games c with
    | none =>
      rw [h'] at hl
      simp at hl
    | some g' =>
      rw [h'] at hl
      refine ⟨g', rfl, ?_⟩
      have heq : g'.currentQuestion = g.currentQuestion := by
        simpa using hl
      exact le_of_eq heq.symm

theorem step_inv_mono (s : Sys) (op : Op) (hinv : sysInv s) :
    sysInv (step s op) ∧
    ∀ c g, alookup s.games c = some g →
      ∃ g', alookup (step s op).games c = some g' ∧
        g.currentQuestion ≤ g'.currentQuestion := by
  obtain ⟨hpw, hbd⟩ := hinv
  cases op with
  | timerTick =>
    refine inv_mono_generic s _ ⟨hpw, hbd⟩ (fun h => h) (fun cg => rfl) ?_ ?_
    · exact check_game_timers_mem s.conns s.db s.games s.now
    · exact check_game_timers_games s.conns s.db s.games s.now
  | submitAnswer qid ans rt sid =>
    obtain ⟨hdbg, hgm⟩ := submit_outcome s.conns s.db s.games qid ans rt sid s.now
    refine inv_mono_generic s _ ⟨hpw, hbd⟩ ?_ ?_ ?_ ?_
    · intro h
      show List.Pairwise _ (handle_submit_answer s.conns s.db s.games qid ans rt sid s.now).db.games
      rw [hdbg]
      exact h
    · intro cg
      exact gameBoundB_congr hdbg cg
    · rcases hgm with h | ⟨gcode, f, hf, h⟩
      · show memCqPreserved s.games (handle_submit_answer s.conns s.db s.games qid ans rt sid s.now).games
        rw [h]
        exact memCqPreserved_refl s.games
      · show memCqPreserved s.games (handle_submit_answer s.conns s.db s.games qid ans rt sid s.now).games
        rw [h]
        exact memCqPreserved_aupdate f hf s.games gcode
    · rcases hgm with h | ⟨gcode, f, hf, h⟩
      · show lookupCqEq s.games (handle_submit_answer s.conns s.db s.games qid ans rt sid s.now).games
        rw [h]
        exact lookupCqEq_refl s.games
      · show lookupCqEq s.games (handle_submit_answer s.conns s.db s.games qid ans rt sid s.now).games
        rw [h]
        exact lookupCqEq_aupdate f hf s.games gcode
  | reconnect o n =>
    obtain ⟨hdbg, hgm⟩ := reconnect_outcome s.conns s.db s.games o n s.now
    refine inv_mono_generic s _ ⟨hpw, hbd⟩ ?_ ?_ ?_ ?_
    · intro h
      show List.Pairwise _ (handle_reconnect s.conns s.db s.games o n s.now).db.games
      rw [hdbg]
      exact h
    · intro cg
      exact gameBoundB_congr hdbg cg
    · rcases hgm with h | ⟨gcode, f, hf, h⟩
      · show memCqPreserved s.games (handle_reconnect s.conns s.db s.games o n s.now).games
        rw [h]
        exact memCqPreserved_refl s.games
      · show memCqPreserved s.games (handle_reconnect s.conns s.db s.games o n s.now).games
        rw [h]
        exact memCqPreserved_aupdate f hf s.games gcode
    · rcases hgm with h | ⟨gcode, f, hf, h⟩
      · show lookupCqEq s.games (handle_reconnect s.conns s.db s.games o n s.now).games
        rw [h]
        exact lookupCqEq_refl s.games
      · show lookupCqEq s.games (handle_reconnect s.conns s.db s.games o n s.now).games
        rw [h]
        exact lookupCqEq_aupdate f hf s.games gcode
  | nextQuestion code sid =>
    rcases next_question_outcome s.conns s.db s.games code sid s.now with
      ⟨hdb, hgm⟩ | ⟨dg, hfg, hdb, hgm⟩ | ⟨dg, q, hfg, hq, hdb, hgm⟩
    · refine inv_mono_generic s _ ⟨hpw, hbd⟩ ?_ ?_ ?_ ?_
      · intro h
        show List.Pairwise _ (handle_next_question s.conns s.db s.games code sid s.now).db.games
        rw [hdb]
        exact h
      · intro cg
        have h1 : (handle_next_question s.conns s.db s.games code sid s.now).db.games =
            s.db.games := by rw [hdb]
        exact gameBoundB_congr h1 cg
      · show memCqPreserved s.games (handle_next_question s.conns s.db s.games code sid s.now).games
        rw [hgm]
        exact memCqPreserved_refl s.games
      · show lookupCqEq s.games (handle_next_question s.conns s.db s.games code sid s.now).games
        rw [hgm]
        exact lookupCqEq_refl s.games
    · -- game-over branch: durable rows keep code, id and index; memory keeps index
      refine inv_mono_generic s _ ⟨hpw, hbd⟩ ?_ ?_ ?_ ?_
      · intro h
        show List.Pairwise _ (handle_next_question s.conns s.db s.games code sid s.now).db.games
        rw [hdb]
        refine pairwise_ids_map s.db.games _ ?_ h
        intro x
        by_cases hx : x.id = dg.id <;> simp [completeGameById, hx]
      · intro cg
        show gameBoundB (handle_next_question s.conns s.db s.games code sid s.now).db cg = _
        rw [hdb]
        refine gameBoundB_games_map s.db _ cg ?_ ?_
        · intro x
          by_cases hx : x.id = dg.id <;> simp [hx]
        · intro x
          by_cases hx : x.id = dg.id <;> simp [hx]
      · show memCqPreserved s.games (handle_next_question s.conns s.db s.games code sid s.now).games
        rw [hgm]
        exact memCqPreserved_aupdate (endGameState s.now) (fun x => rfl) s.games code
      · show lookupCqEq s.games (handle_next_question s.conns s.db s.games code sid s.now).games
        rw [hgm]
        exact lookupCqEq_aupdate (endGameState s.now) (fun x => rfl) s.games code
    · -- advance branch
      have hmapfind : ∀ c, findGameByCode
          (handle_next_question s.conns s.db s.games code sid s.now).db c =
          (findGameByCode s.db c).map
            (fun x => if x.id = dg.id then
              { x with currentQuestion := some (dg.currentQuestion.getD (-1) + 1) } else x) := by
        intro c
        rw [hdb]
        refine findGameByCode_games_map s.db _ c ?_
        intro x
        by_cases hx : x.id = dg.id <;> simp [hx]
      constructor
      · refine ⟨?_, ?_⟩
        · show List.Pairwise (fun a b : DbGame => a.id ≠ b.id)
            (handle_next_question s.conns s.db s.games code sid s.now).db.games
          rw [hdb]
          refine pairwise_ids_map s.db.games _ ?_ hpw
          intro x
          by_cases hx : x.id = dg.id <;> simp [setCurrentQuestionDb, hx]
        · intro cg hcg
          have hcg2 : cg ∈
              (handle_next_question s.conns s.db s.games code sid s.now).games := hcg
          rw [hgm] at hcg2
          show gameBoundB (handle_next_question s.conns s.db s.games code sid s.now).db
            cg = true
          rw [gameBoundB_iff]
          rcases mem_aupdate hcg2 with h1 | ⟨hk, v, hv, he⟩
          · rcases (gameBoundB_iff s.db cg).mp (hbd cg h1) with ⟨dg0, hdg0, hle⟩
            by_cases hc : cg.1 = code
            · have hdgeq : dg0 = dg := by
                rw [hc] at hdg0
                rw [hdg0] at hfg
                injection hfg
              subst hdgeq
              rw [hmapfind cg.1, hdg0]
              refine ⟨_, rfl, ?_⟩
              simp
              generalize dg0.currentQuestion.getD (-1) = m at hle ⊢
              omega
            · have hidne : dg0.id ≠ dg.id :=
                distinct_codes_distinct_ids s.db hpw hdg0 hfg hc
              rw [hmapfind cg.1, hdg0]
              refine ⟨_, rfl, ?_⟩
              simp only [hidne, if_false]
              exact hle
          · -- the freshly advanced entry
            have hvmem := hbd (cg.1, v) (by rw [hk]; exact hv)
            rcases (gameBoundB_iff s.db (cg.1, v)).mp hvmem with ⟨dg0, hdg0, hle⟩
            have hdgeq : dg0 = dg := by
              rw [hk] at hdg0
              rw [hdg0] at hfg
              injection hfg
            subst hdgeq
            rw [hmapfind cg.1, hdg0]
            refine ⟨_, rfl, ?_⟩
            rw [he]
            simp only [if_pos rfl, Option.getD_some]
            unfold advanceGameState
            simp
      · intro c g hg
        show ∃ g', alookup
            (handle_next_question s.conns s.db s.games code sid s.now).games c =
            some g' ∧ g.currentQuestion ≤ g'.currentQuestion
        rw [hgm, alookup_aupdate]
        by_cases hc : c = code
        · rw [if_pos hc, hg]
          refine ⟨_, rfl, ?_⟩
          have hmm := hbd (c, g) (alookup_mem hg)
          rcases (gameBoundB_iff s.db (c, g)).mp hmm with ⟨dg0, hdg0, hle⟩
          have hdgeq : dg0 = dg := by
            rw [hc] at hdg0
            rw [hdg0] at hfg
            injection hfg
          subst hdgeq
          unfold advanceGameState
          dsimp only at hle ⊢
          generalize dg0.currentQuestion.getD (-1) = m at hle ⊢
          omega
        · rw [if_neg hc, hg]
          exact ⟨g, rfl, le_rfl⟩

theorem run_inv_mono (ops : List Op) :
    ∀ s : Sys, sysInv s →
      sysInv (run s ops) ∧
      ∀ c g, alookup s.games c = some g →
        ∃ g', alookup (run s ops).games c = some g' ∧
          g.currentQuestion ≤ g'.currentQuestion := by
  induction ops with
  | nil =>
    intro s hinv
    exact ⟨hinv, fun c g hg => ⟨g, hg, le_rfl⟩⟩
  | cons op rest ih =>
    intro s hinv
    obtain ⟨hinv1, hmono1⟩ := step_inv_mono s op hinv
    obtain ⟨hinv2, hmono2⟩ := ih (step s op) hinv1
    refine ⟨hinv2, ?_⟩
    intro c g hg
    obtain ⟨g1, hg1, hle1⟩ := hmono1 c g hg
    obtain ⟨g2, hg2, hle2⟩ := hmono2 c g1 hg1
    exact ⟨g2, hg2, le_trans hle1 hle2⟩

/-- C9: across any sequence of advance commands, timer ticks, answer
submissions and reconnections, a session's in-memory current question index
never decreases (assuming the invariant that durable game rows have
distinct primary keys and every in-memory index is bounded by its durable
row's index, which every reachable state satisfies because
`handle_next_question` writes both together). -/
theorem c9_index_monotone (s : Sys) (ops : List Op) (code : String)
    (g g' : GameState) (hinv : sysInv s)
    (hg : alookup s.games code = some g)
    (hg' : alookup (run s ops).games code = some g') :
    g.currentQuestion ≤ g'.currentQuestion := by
  obtain ⟨-, hmono⟩ := run_inv_mono ops s hinv
  obtain ⟨g2, hg2, hle⟩ := hmono code g hg
  rw [hg'] at hg2
  injection hg2 with h2
  rw [← h2] at hle
  exact hle

/-- The session "G" after the host advances once from index 0. -/
def exGameStateAfter : GameState :=
  { exGameState with currentQuestion := 1, state := ConnState.Question,
                     questionTimer := some 5, questionDuration := some 20 }

theorem c9_index_monotone_witness :
    sysInv ⟨exConns, exDbFresh, exGames, 5⟩ ∧
    alookup (Sys.mk exConns exDbFresh exGames 5).games "G" = some exGameState ∧
    alookup (run ⟨exConns, exDbFresh, exGames, 5⟩ [Op.nextQuestion "G" "h"]).games "G" =
      some exGameStateAfter ∧
    exGameState.currentQuestion ≤ exGameStateAfter.currentQuestion :=
  ⟨by decide, rfl, rfl,
   c9_index_monotone ⟨exConns, exDbFresh, exGames, 5⟩ [Op.nextQuestion "G" "h"] "G"
     exGameState exGameStateAfter (by decide) rfl rfl⟩

end Sorukayisi
